import Mathlib

/-
Verification of the aitune writing assistant's streaming-ingestion and
document-normalization pipeline.

The TypeScript sources are embedded shallowly: JavaScript strings are lists
of Unicode scalar values (`List Char`), the regular expressions used by the
code are translated into explicit scanning functions with the same matching
semantics, and the stateful stream-reading loop becomes a fold over an
explicit state type.  Pure helper functions keep their source names
(`normalizeTitleCandidates`, `clampOutputToLength`, `addToHistory`, ...).
-/

namespace Aitune

/-! ## JavaScript string primitives -/

/-- The JavaScript whitespace class `\s` (as used by `String.prototype.trim`,
`\s` in regular expressions and `replace(/\s+/g, "")`). -/
def jsWs (c : Char) : Bool :=
  let n := c.toNat
  n = 32 || n = 9 || n = 10 || n = 11 || n = 12 || n = 13 ||
  n = 0xa0 || n = 0x1680 || (0x2000 ≤ n && n ≤ 0x200a) ||
  n = 0x2028 || n = 0x2029 || n = 0x202f || n = 0x205f || n = 0x3000 || n = 0xfeff

/-- `String.prototype.trim`: drop leading and trailing whitespace. -/
def jsTrim (cs : List Char) : List Char :=
  ((cs.dropWhile jsWs).reverse.dropWhile jsWs).reverse

/-- `String.prototype.includes(pat)`: substring test. -/
def containsSub (pat : List Char) : List Char → Bool
  | [] => pat.isPrefixOf ([] : List Char)
  | c :: cs => pat.isPrefixOf (c :: cs) || containsSub pat cs

/-- Case-insensitive substring test (a `/pat/i` regexp with a literal
pattern, used via `.test`). -/
def containsSubCI (pat : List Char) (cs : List Char) : Bool :=
  containsSub (pat.map Char.toLower) (cs.map Char.toLower)

/-- `text.split(/\r?\n/)`: split into lines at `\n`, consuming an
immediately preceding `\r` together with the `\n`. -/
def splitNlData : List Char → List (List Char)
  | [] => [[]]
  | [c] => if c = '\n' then [[], []] else [[c]]
  | c1 :: c2 :: rest =>
    if c1 = '\r' ∧ c2 = '\n' then [] :: splitNlData rest
    else if c1 = '\n' then [] :: splitNlData (c2 :: rest)
    else (splitNlData (c2 :: rest)).modifyHead (c1 :: ·)

/-- `text.split('\n')`. -/
def splitLfData : List Char → List (List Char)
  | [] => [[]]
  | '\n' :: rest => [] :: splitLfData rest
  | c :: rest => (splitLfData rest).modifyHead (c :: ·)

/-- `lines.join("\n")`. -/
def joinNl (ls : List (List Char)) : List Char :=
  List.intercalate [ '\n'] ls

/-- `parseInt(digits, 10)` on a non-empty digit string. -/
def natOfDigits (ds : List Char) : Nat :=
  ds.foldl (fun a c => a * 10 + (c.toNat - 48)) 0

/-- The backtick character. -/
def btick : Char := Char.ofNat 96

/-! ## `src/lib/text.ts`: `stripMarkdown` and `getCharCount`

`stripMarkdown` is a chain of seven global regexp replacements; each is
translated into a scanning pass with JavaScript's leftmost-match,
continue-after-match semantics.  The scanning passes take a fuel argument
(instantiated with the input length, which always suffices because every
round consumes at least one character) so that they are structurally
recursive and evaluate inside the kernel. -/

/-- Split at the first occurrence of three consecutive backticks; returns
the text before and the text after the triple. -/
def splitAtTriple : List Char → Option (List Char × List Char)
  | c1 :: c2 :: c3 :: rest =>
    if c1 = btick ∧ c2 = btick ∧ c3 = btick then some ([], rest)
    else
      match splitAtTriple (c2 :: c3 :: rest) with
      | some (pre, post) => some (c1 :: pre, post)
      | none => none
  | _ => none

/-- `replace(/```[\s\S]*?```/g, "")`: remove fenced code blocks (a lazy
match from an opening triple to the nearest closing triple; with no closing
triple left, nothing more matches). -/
def stripFencesF : Nat → List Char → List Char
  | 0, cs => cs
  | fuel + 1, cs =>
    match splitAtTriple cs with
    | none => cs
    | some (pre, rest) =>
      match splitAtTriple rest with
      | none => cs
      | some (_, rest2) => pre ++ stripFencesF fuel rest2

def stripFences (cs : List Char) : List Char :=
  stripFencesF cs.length cs

/-- Split at the first backtick; returns the text before and after it. -/
def splitAtBt : List Char → Option (List Char × List Char)
  | [] => none
  | c :: cs =>
    if c = btick then some ([], cs)
    else
      match splitAtBt cs with
      | some (pre, post) => some (c :: pre, post)
      | none => none

/-- `replace(/`[^`]*`/g, "")`: remove inline code spans. -/
def stripInlineF : Nat → List Char → List Char
  | 0, cs => cs
  | fuel + 1, cs =>
    match splitAtBt cs with
    | none => cs
    | some (pre, rest) =>
      match splitAtBt rest with
      | none => cs
      | some (_, rest2) => pre ++ stripInlineF fuel rest2

def stripInline (cs : List Char) : List Char :=
  stripInlineF cs.length cs

/-- After having seen `![`, consume `[^\]]*` `]` `(` `[^)]*` `)`; returns
the remainder after the closing parenthesis. -/
def matchImageTail (cs : List Char) : Option (List Char) :=
  let r1 := cs.dropWhile (· ≠ ']')
  if r1.take 2 = [ ']', '('] then
    let r2 := (r1.drop 2).dropWhile (· ≠ ')')
    if r2.take 1 = [ ')'] then some (r2.drop 1) else none
  else none

/-- `replace(/!\[[^\]]*]\([^\)]*\)/g, "")`: remove image references. -/
def stripImagesF : Nat → List Char → List Char
  | 0, cs => cs
  | _, [] => []
  | _, [c] => [c]
  | fuel + 1, c1 :: c2 :: rest =>
    if c1 = '!' ∧ c2 = '[' then
      match matchImageTail rest with
      | some r => stripImagesF fuel r
      | none => c1 :: stripImagesF fuel (c2 :: rest)
    else c1 :: stripImagesF fuel (c2 :: rest)

def stripImages (cs : List Char) : List Char :=
  stripImagesF cs.length cs

/-- After having seen `[`, consume `[^\]]+` `]` `(` `[^)]*` `)`; returns the
captured link text and the remainder after the closing parenthesis. -/
def matchLinkTail (cs : List Char) : Option (List Char × List Char) :=
  let inner := cs.takeWhile (· ≠ ']')
  let r1 := cs.dropWhile (· ≠ ']')
  if inner = [] then none
  else if r1.take 2 = [ ']', '('] then
    let r2 := (r1.drop 2).dropWhile (· ≠ ')')
    if r2.take 1 = [ ')'] then some (inner, r2.drop 1) else none
  else none

/-- `replace(/\[([^\]]+)]\([^\)]*\)/g, "$1")`: replace links by their text;
the substituted text is emitted verbatim and not rescanned. -/
def stripLinksF : Nat → List Char → List Char
  | 0, cs => cs
  | _, [] => []
  | fuel + 1, c :: rest =>
    if c = '[' then
      match matchLinkTail rest with
      | some (inner, r) => inner ++ stripLinksF fuel r
      | none => c :: stripLinksF fuel rest
    else c :: stripLinksF fuel rest

def stripLinks (cs : List Char) : List Char :=
  stripLinksF cs.length cs

/-- `replace(/#{1,6}\s*/g, "")`: drop runs of one to six hash signs together
with the following whitespace.  (The head of the run is consumed by the
pattern, so the recursive call drops the remaining `n - 1` hashes.) -/
def stripHashesF : Nat → List Char → List Char
  | 0, cs => cs
  | _, [] => []
  | fuel + 1, c :: rest =>
    if c = '#' then
      let n := min (((c :: rest).takeWhile (· = '#')).length) 6
      stripHashesF fuel ((rest.drop (n - 1)).dropWhile jsWs)
    else c :: stripHashesF fuel rest

def stripHashes (cs : List Char) : List Char :=
  stripHashesF cs.length cs

/-- `replace(/\*\*|__|~~|`/g, "")`: remove bold/underline/strikethrough
markers and stray backticks. -/
def stripEmph : List Char → List Char
  | '*' :: '*' :: rest => stripEmph rest
  | '_' :: '_' :: rest => stripEmph rest
  | '~' :: '~' :: rest => stripEmph rest
  | [] => []
  | c :: rest => if c = btick then stripEmph rest else c :: stripEmph rest

/-- `replace(/<[^>]*>/g, "")`: remove HTML-like tags.  A `<` with no later
`>` cannot start a match (and then no later `<` can either). -/
def stripTagsF : Nat → List Char → List Char
  | 0, cs => cs
  | _, [] => []
  | fuel + 1, c :: rest =>
    if c = '<' then
      let r1 := rest.dropWhile (· ≠ '>')
      if r1.take 1 = [ '>'] then stripTagsF fuel (r1.drop 1) else c :: rest
    else c :: stripTagsF fuel rest

def stripTags (cs : List Char) : List Char :=
  stripTagsF cs.length cs

/-- `stripMarkdown` from `src/lib/text.ts`: the seven replacement passes in
source order. -/
def stripMarkdownData (cs : List Char) : List Char :=
  stripTags (stripEmph (stripHashes (stripLinks (stripImages (stripInline (stripFences cs))))))

/-- `stripMarkdown` on `String`s. -/
def stripMarkdown (s : String) : String :=
  String.mk (stripMarkdownData s.data)

/-- JavaScript `String.prototype.length` counts UTF-16 code units: astral
code points count twice. -/
def jsLen (cs : List Char) : Nat :=
  (cs.map (fun c => if 0x10000 ≤ c.toNat then 2 else 1)).sum

/-- `getCharCount` from `src/lib/text.ts`:
`stripMarkdown(text).replace(/\s+/g, "").length`. -/
def getCharCount (s : String) : Nat :=
  jsLen ((stripMarkdownData s.data).filter (fun c => !jsWs c))

/-! ## Pattern helpers for the normalizers (`src/components/writing-form.tsx`) -/

/-- Is the first character whitespace?  (A `\s` that must consume one
character.) -/
def headWs (l : List Char) : Bool :=
  match l with
  | c :: _ => jsWs c
  | [] => false

/-- `/^\s*#\s*/.test(content)`: after leading whitespace, a `#`. -/
def startsHash (l : List Char) : Bool :=
  (l.dropWhile jsWs).take 1 = [ '#']

/-- `replace(/^\(\d+\)\s*/, "")`: strip one leading parenthesised number. -/
def stripLeadParen (l : List Char) : List Char :=
  match l with
  | '(' :: rest =>
    let ds := rest.takeWhile Char.isDigit
    if ds ≠ [] ∧ (rest.drop ds.length).take 1 = [ ')'] then
      ((rest.drop ds.length).drop 1).dropWhile jsWs
    else l
  | _ => l

/-- `/^\s*(\d+)\.\s*(.*)$/`: leading whitespace, digits, a dot, whitespace,
then the captured remainder. -/
def mOldMatch (l : List Char) : Option (Nat × List Char) :=
  let r1 := l.dropWhile jsWs
  let ds := r1.takeWhile Char.isDigit
  if ds = [] then none
  else
    let r2 := r1.drop ds.length
    if r2.take 1 = [ '.'] then some (natOfDigits ds, (r2.drop 1).dropWhile jsWs)
    else none

/-- `/^\s*L\.\d+\s+(.*)$/` with a literal first digit `L` (`1` in the
title-candidate scanner, `2` in the outline scanner). -/
def mHierMatch (lead : Char) (l : List Char) : Option (List Char) :=
  let r1 := l.dropWhile jsWs
  if r1.take 1 = [lead] ∧ (r1.drop 1).take 1 = [ '.'] then
    let ds := (r1.drop 2).takeWhile Char.isDigit
    if ds = [] then none
    else
      let r3 := (r1.drop 2).drop ds.length
      let w := r3.takeWhile jsWs
      if w = [] then none else some (r3.drop w.length)
  else none

/-- The lookahead `(?=\s+\d+\.\s)` of the inline-item regexp. -/
def inlineLookNum (l : List Char) : Bool :=
  let w := l.takeWhile jsWs
  let r := l.drop w.length
  let ds := r.takeWhile Char.isDigit
  w ≠ [] && ds ≠ [] && (r.drop ds.length).take 1 = [ '.'] && headWs ((r.drop ds.length).drop 1)

/-- The lazy `(.*?)` of the inline-item regexp: the shortest content after
which either `(?=\s+\d+\.\s)` holds or the line ends. -/
def inlineContent : List Char → (List Char × List Char)
  | [] => ([], [])
  | c :: rest =>
    if inlineLookNum (c :: rest) then ([], c :: rest)
    else
      let p := inlineContent rest
      (c :: p.1, p.2)

/-- `\d+\.\s*` followed by the lazy content, starting exactly here. -/
def inlineNumDotAt (l : List Char) : Option (List Char × List Char) :=
  let ds := l.takeWhile Char.isDigit
  if ds = [] then none
  else
    let r := l.drop ds.length
    if r.take 1 = [ '.'] then some (inlineContent ((r.drop 1).dropWhile jsWs))
    else none

/-- One attempted match of `/(?:^|\s)(\d+)\.\s*(.*?)(?=(?:\s+\d+\.\s)|$)/`
at the current position (`atStart` is true only at the very beginning of
the line, where the `^` alternative applies). -/
def inlineMatchAt (atStart : Bool) (l : List Char) : Option (List Char × List Char) :=
  match (if atStart then inlineNumDotAt l else none) with
  | some p => some p
  | none =>
    match l with
    | w :: rest => if jsWs w then inlineNumDotAt rest else none
    | [] => none

/-- All matches of the inline-item regexp (`String.prototype.matchAll`):
leftmost matches, continuing after each match, advancing one character
after a failed attempt.  Fuel is the line length; every round consumes at
least one character. -/
def inlineAllF : Nat → Bool → List Char → List (List Char)
  | 0, _, _ => []
  | fuel + 1, atStart, l =>
    match inlineMatchAt atStart l with
    | some (content, rest) => content :: inlineAllF fuel false rest
    | none =>
      match l with
      | [] => []
      | _ :: t => inlineAllF fuel false t

/-- The `m[2]` captures of all inline-item matches on a line. -/
def inlineItems (l : List Char) : List (List Char) :=
  inlineAllF l.length true l

/-! ## `normalizeTitleCandidates` -/

/-- The `placeholder` closure of `normalizeTitleCandidates`. -/
def placeholderTitle (keyword : String) (language : String) (idx : Nat) : List Char :=
  if language = "English" then
    if idx = 1 then keyword.data ++ (": Key Points and Practice").data
    else if idx = 2 then keyword.data ++ (" Strategy Guide").data
    else keyword.data ++ (" Case Notes").data
  else if language = "日本語" then
    if idx = 1 then keyword.data ++ ("の要点と実践").data
    else if idx = 2 then keyword.data ++ ("戦略ガイド").data
    else keyword.data ++ ("ケースメモ").data
  else
    if idx = 1 then keyword.data ++ ("：核心要点与实践").data
    else if idx = 2 then keyword.data ++ ("应用攻略").data
    else keyword.data ++ ("策略笔记").data

/-- `headerPatterns` of `normalizeTitleCandidates`. -/
def titleHeaderTest (l : List Char) : Bool :=
  containsSub ("标题候选").data l || containsSubCI ("Title Candidates").data l ||
  containsSub ("タイトル候補").data l

/-- `stopPatterns` of `normalizeTitleCandidates` (substring tests). -/
def titleStopSubTest (l : List Char) : Bool :=
  containsSub ("内容大纲").data l || containsSubCI ("Outline").data l ||
  containsSub ("アウトライン").data l || containsSub ("正文").data l ||
  containsSubCI ("Body").data l || containsSub ("本文").data l ||
  containsSub ("结尾总结").data l || containsSub ("行动建议").data l ||
  containsSubCI ("Conclusion").data l || containsSub ("結論").data l

/-- `/^\s*\d+\.\s*(alt₁|...|altₙ)/.test(line)`. -/
def numberedAltTest (alts : List (List Char)) (l : List Char) : Bool :=
  let r1 := l.dropWhile jsWs
  let ds := r1.takeWhile Char.isDigit
  let r2 := r1.drop ds.length
  ds ≠ [] && r2.take 1 = [ '.'] &&
    alts.any (fun a => a.isPrefixOf ((r2.drop 1).dropWhile jsWs))

def titleNumStopAlts : List (List Char) :=
  [("内容大纲").data, ("Outline").data, ("アウトライン").data, ("正文").data,
   ("Body").data, ("本文").data, ("结尾总结").data, ("行动建议").data,
   ("Conclusion").data, ("結論").data]

/-- `## ` prefix for rewritten items. -/
def hh (content : List Char) : List Char :=
  '#' :: '#' :: ' ' :: content

/-- The inline rewrite of `normalizeTitleCandidates`: each item becomes
`## <content or placeholder(min(k+1,3))>`, joined with `\n` into one slot. -/
def titleInlineRewrite (kw lang : String) (items : List (List Char)) : List Char :=
  joinNl (items.mapIdx (fun k m =>
    let content := stripLeadParen (jsTrim m)
    let n := min (k + 1) 3
    hh (if content ≠ [] then content else placeholderTitle kw lang n)))

/-- The line loop of `normalizeTitleCandidates`, with the mutable
`inSection` / `idxCounter` state made explicit.  A stop line breaks out of
the loop, leaving it and all later lines untouched. -/
def normTitleLoop (kw lang : String) : Bool → Nat → List (List Char) → List (List Char)
  | _, _, [] => []
  | false, idxCounter, line :: rest =>
    if titleHeaderTest line then line :: normTitleLoop kw lang true 1 rest
    else line :: normTitleLoop kw lang false idxCounter rest
  | true, idxCounter, line :: rest =>
    let items := inlineItems line
    if 1 < items.length then
      titleInlineRewrite kw lang items :: normTitleLoop kw lang true 1 rest
    else if titleStopSubTest line || numberedAltTest titleNumStopAlts line then
      line :: rest
    else
      match mHierMatch '1' line with
      | some cap =>
        let content := stripLeadParen (jsTrim cap)
        hh (if content ≠ [] then content else placeholderTitle kw lang idxCounter) ::
          normTitleLoop kw lang true (idxCounter + 1) rest
      | none =>
        match mOldMatch line with
        | some (idx, cap) =>
          let content := jsTrim cap
          hh (if content ≠ [] then content else placeholderTitle kw lang idx) ::
            normTitleLoop kw lang true (max idxCounter (idx + 1)) rest
        | none =>
          let content := jsTrim line
          if content ≠ [] ∧ ¬ startsHash content then
            hh content :: normTitleLoop kw lang true (min idxCounter 3 + 1) rest
          else line :: normTitleLoop kw lang true idxCounter rest

/-- `normalizeTitleCandidates(text, keyword, language)`. -/
def normalizeTitleCandidates (text : String) (keyword : String) (language : String) : String :=
  String.mk (joinNl (normTitleLoop keyword language false 1 (splitNlData text.data)))

/-! ## `normalizeOutline` -/

/-- `trimOutlineText`: cut at the first `。` or `.`, then trim. -/
def trimOutlineText (s : List Char) : List Char :=
  let pre := s.takeWhile (fun c => ¬ (c = '。' ∨ c = '.'))
  if pre.length = s.length then jsTrim s else jsTrim pre

/-- The character class `[的之与和或及等、：:]`. -/
def dangCls (c : Char) : Bool :=
  c = '的' || c = '之' || c = '与' || c = '和' || c = '或' || c = '及' ||
  c = '等' || c = '、' || c = '：' || c = ':'

/-- `fixDanglingTail`: drop one trailing connective character (plus the
whitespace after it); fall back to the trimmed input when that empties the
string. -/
def fixDanglingTail (s : List Char) : List Char :=
  let rv := s.reverse.dropWhile jsWs
  let r := match rv with
    | c :: restR => if dangCls c then restR.reverse else s
    | [] => s
  if jsTrim r ≠ [] then jsTrim r else jsTrim s

def outlineHeaderTest (l : List Char) : Bool :=
  containsSub ("内容大纲").data l || containsSubCI ("Outline").data l ||
  containsSub ("アウトライン").data l

def outlineStopSubTest (l : List Char) : Bool :=
  containsSub ("正文").data l || containsSubCI ("Body").data l ||
  containsSub ("本文").data l || containsSub ("结尾总结").data l ||
  containsSub ("行动建议").data l || containsSubCI ("Conclusion").data l ||
  containsSub ("結論").data l

def outlineNumStopAlts : List (List Char) :=
  [("正文").data, ("Body").data, ("本文").data, ("结尾总结").data,
   ("行动建议").data, ("Conclusion").data, ("結論").data]

/-- The inline rewrite of `normalizeOutline`. -/
def outlineInlineRewrite (items : List (List Char)) : List Char :=
  joinNl (items.map (fun m =>
    let content := stripLeadParen (jsTrim m)
    hh (fixDanglingTail (trimOutlineText content))))

/-- The line loop of `normalizeOutline` (state: `inSection`, `seq`; the
stop check precedes the inline-item check in this scanner). -/
def normOutlineLoop : Bool → Nat → List (List Char) → List (List Char)
  | _, _, [] => []
  | false, seq, line :: rest =>
    if outlineHeaderTest line then line :: normOutlineLoop true 0 rest
    else line :: normOutlineLoop false seq rest
  | true, seq, line :: rest =>
    if outlineStopSubTest line || numberedAltTest outlineNumStopAlts line then
      line :: rest
    else
      let items := inlineItems line
      if 1 < items.length then
        outlineInlineRewrite items :: normOutlineLoop true items.length rest
      else
        match mHierMatch '2' line with
        | some cap =>
          let content := stripLeadParen (jsTrim cap)
          hh (fixDanglingTail (trimOutlineText content)) :: normOutlineLoop true seq rest
        | none =>
          match mOldMatch line with
          | some (idx, cap) =>
            hh (fixDanglingTail (trimOutlineText cap)) :: normOutlineLoop true (max seq idx) rest
          | none =>
            let content := jsTrim line
            if content ≠ [] ∧ ¬ startsHash content then
              hh (fixDanglingTail (trimOutlineText content)) :: normOutlineLoop true (seq + 1) rest
            else line :: normOutlineLoop true seq rest

/-- `normalizeOutline(text)`. -/
def normalizeOutline (text : String) : String :=
  String.mk (joinNl (normOutlineLoop false 0 (splitNlData text.data)))

/-! ## `normalizeTopSections` -/

/-- `line.replace(/^\s*#{1,6}\s*/, "")`: strip one leading run of up to six
hashes (with surrounding whitespace); without a hash nothing is replaced. -/
def stripHashPre (l : List Char) : List Char :=
  let r := l.dropWhile jsWs
  let hs := r.takeWhile (· = '#')
  if hs = [] then l
  else
    let n := min hs.length 6
    (r.drop n).dropWhile jsWs

/-- `replace(/\s*[（(]+$/, "")`: strip a trailing run of opening
parentheses and the whitespace before it. -/
def stripTrailParen (t : List Char) : List Char :=
  let rv := t.reverse
  let ps := rv.takeWhile (fun c => c = '（' ∨ c = '(')
  if ps = [] then t else ((rv.drop ps.length).dropWhile jsWs).reverse

/-- The tail of `/^(\d+)\s*[\.、]?\s*(.+)$/` after the digits, with the
regexp's backtracking: the optional separator is given back when `(.+)`
would otherwise be empty. -/
def m1TailMatch (t : List Char) : Option (List Char) :=
  let t1 := t.dropWhile jsWs
  match t1 with
  | c :: t1r =>
    if c = '.' ∨ c = '、' then
      let t2 := t1r.dropWhile jsWs
      if t2 ≠ [] then some t2
      else if t1r ≠ [] then some (t1r.drop (t1r.length - 1))
      else some t1
    else some (c :: t1r)
  | [] => none

/-- Digit backtracking of `/^(\d+)\s*[\.、]?\s*(.+)$/`: the greedy `(\d+)`
gives digits back one at a time until the tail matches (the first argument
is the digit run in reverse). -/
def m1BackRev : List Char → List Char → Option (Nat × List Char)
  | dsRev, rest =>
    match m1TailMatch rest with
    | some title => some (natOfDigits dsRev.reverse, title)
    | none =>
      match dsRev with
      | d :: d2 :: dsr => m1BackRev (d2 :: dsr) (d :: rest)
      | _ => none

/-- `stripped.match(/^(\d+)\s*[\.、]?\s*(.+)$/)`. -/
def m1Match (s : List Char) : Option (Nat × List Char) :=
  let ds := s.takeWhile Char.isDigit
  if ds = [] then none else m1BackRev ds.reverse (s.drop ds.length)

/-- The alternatives of the `isTop` prefix test of `normLine`
(case-sensitive). -/
def topTitleAlts : List (List Char) :=
  [("标题候选").data, ("Title Candidates").data, ("タイトル候補").data,
   ("内容大纲").data, ("Outline").data, ("アウトライン").data,
   ("正文").data, ("Body").data, ("本文").data,
   ("结尾").data, ("结语").data, ("结尾总结").data,
   ("结尾总结或行动建议").data, ("行动建议").data,
   ("Conclusion").data, ("結論").data]

def isTopTitle (t : List Char) : Bool :=
  topTitleAlts.any (fun a => a.isPrefixOf t)

/-- Section number inferred from the matched keyword when the header
carries no explicit number. -/
def inferTopIdx (title : List Char) : Nat :=
  if [("标题候选").data, ("Title Candidates").data, ("タイトル候補").data].any
      (fun a => a.isPrefixOf title) then 1
  else if [("内容大纲").data, ("Outline").data, ("アウトライン").data].any
      (fun a => a.isPrefixOf title) then 2
  else if [("正文").data, ("Body").data, ("本文").data].any
      (fun a => a.isPrefixOf title) then 3
  else 4

/-- `` `# ${fixedIdx}. ${title}` ``. -/
def mkTopLine (idx : Nat) (title : List Char) : List Char :=
  '#' :: ' ' :: ((Nat.repr idx).data ++ '.' :: ' ' :: title)

/-- `normLine` of `normalizeTopSections`: canonicalise a header line,
leave anything else unchanged. -/
def normLine (line : List Char) : List Char :=
  let stripped := jsTrim (stripHashPre line)
  match m1Match stripped with
  | some (idx, cap) =>
    let title := stripTrailParen (jsTrim cap)
    if isTopTitle title then mkTopLine idx title else line
  | none =>
    let title := stripTrailParen stripped
    if isTopTitle title then mkTopLine (inferTopIdx title) title else line

/-- `/^#\s*\d+\.\s+/.test(l)`: a canonical top-section header. -/
def isTopHeader (l : List Char) : Bool :=
  match l with
  | '#' :: r =>
    let r1 := r.dropWhile jsWs
    let ds := r1.takeWhile Char.isDigit
    ds ≠ [] && (r1.drop ds.length).take 1 = [ '.'] &&
      headWs ((r1.drop ds.length).drop 1)
  | _ => false

/-- `/^#\s*N\.\s+/.test(l)` with a literal digit `N`. -/
def isTopN (n : Char) (l : List Char) : Bool :=
  match l with
  | '#' :: r =>
    let r1 := r.dropWhile jsWs
    r1.take 2 = [n, '.'] && headWs (r1.drop 2)
  | _ => false

/-- `lines.slice(a, b)` (start/end clamped, empty when `b ≤ a`). -/
def sliceL (lines : List (List Char)) (a b : Nat) : List (List Char) :=
  (lines.drop a).take (b - a)

/-- `normalizeTopSections(text)`: canonicalise every header line, then — if
all four canonical headers were located — re-emit the four sections (as
index slices) in order 1,2,3,4, up to the next top header after section 4. -/
def normalizeTopSections (text : String) : String :=
  let lines := (splitNlData text.data).map normLine
  match lines.findIdx? (isTopN '1'), lines.findIdx? (isTopN '2'),
      lines.findIdx? (isTopN '3'), lines.findIdx? (isTopN '4') with
  | some i1, some i2, some i3, some i4 =>
    let endAbs := match (lines.drop (i4 + 1)).findIdx? isTopHeader with
      | some r => i4 + 1 + r
      | none => lines.length
    String.mk (joinNl
      (sliceL lines i1 i2 ++ sliceL lines i2 i3 ++ sliceL lines i3 i4 ++
        sliceL lines i4 endAbs))
  | _, _, _, _ => String.mk (joinNl lines)

/-! ## `dedupeTopSections` -/

/-- The linear dedup pass: a top-header line identical to the previous
top-header line (with any number of non-header lines between) is dropped. -/
def dedupeLoop (prevTop : Option (List Char)) : List (List Char) → List (List Char)
  | [] => []
  | line :: rest =>
    if isTopHeader line then
      if prevTop = some line then dedupeLoop prevTop rest
      else line :: dedupeLoop (some line) rest
    else line :: dedupeLoop prevTop rest

def dedupeTopSections (text : String) : String :=
  String.mk (joinNl (dedupeLoop none (splitNlData text.data)))

/-- The four-pass normalization applied to every streamed update
(`scheduleUpdate` in `handleGenerate`): title candidates, outline,
top-section renumbering, adjacent-top-header dedup. -/
def normalizePass (text keyword language : String) : String :=
  dedupeTopSections (normalizeTopSections (normalizeOutline
    (normalizeTitleCandidates text keyword language)))

/-! ## Fallback markers, `stripDuplicateStructures`, incompleteness -/

def zhMarker : String := "提示：当前内容为生成失败后的兜底内容（本地生成），仅供参考。"

def enMarker : String := "Notice: This is locally generated fallback content"

def jaMarker : String := "注意：これは生成失敗・レート制限時のローカルフォールバックです。参考用。"

/-- `hasFallbackMarker(text)`. -/
def hasFallbackMarker (text : String) : Bool :=
  containsSub zhMarker.data text.data || containsSub enMarker.data text.data ||
  containsSub jaMarker.data text.data

/-- Indices (in order) of the lines satisfying `p`. -/
def idxsOfAux (p : List Char → Bool) (i : Nat) : List (List Char) → List Nat
  | [] => []
  | l :: rest =>
    if p l then i :: idxsOfAux p (i + 1) rest else idxsOfAux p (i + 1) rest

def idxsOf (p : List Char → Bool) (ls : List (List Char)) : List Nat :=
  idxsOfAux p 0 ls

/-- Does a line contain one of the three fallback markers? -/
def markerLineTest (l : List Char) : Bool :=
  containsSub zhMarker.data l || containsSub enMarker.data l ||
  containsSub jaMarker.data l

/-- `stripDuplicateStructures(text)`. -/
def stripDuplicateStructures (text : String) : String :=
  let lines := splitNlData text.data
  let top1Idxs := idxsOf (isTopN '1') lines
  let markerLines := idxsOf markerLineTest lines
  match markerLines with
  | firstMarker :: restMarkers =>
    let startStruct :=
      match top1Idxs.find? (fun i => decide (firstMarker ≤ i)) with
      | some i => i
      | none =>
        match top1Idxs.getLast? with
        | some i => i
        | none => firstMarker
    let endIdx := match restMarkers.head? with
      | some m => m
      | none => lines.length
    String.mk (jsTrim (joinNl (sliceL lines startStruct endIdx)))
  | [] =>
    match top1Idxs with
    | i :: j :: _ => String.mk (jsTrim (joinNl (sliceL lines i j)))
    | _ => text

/-- The `short`/`medium`/`long` character ranges (`?? ranges.medium`). -/
def tierMax (lengthKey : String) : Nat :=
  if lengthKey = "short" then 500
  else if lengthKey = "medium" then 1200
  else if lengthKey = "long" then 2200
  else 1200

def tierMin (lengthKey : String) : Nat :=
  if lengthKey = "short" then 300
  else if lengthKey = "medium" then 800
  else if lengthKey = "long" then 1500
  else 800

/-- `/\.{3}$|…$/`-style suffix tests. -/
def endsWith3Dots (cs : List Char) : Bool :=
  [ '.', '.', '.'].isSuffixOf cs

def endsWithEllipsis (cs : List Char) : Bool :=
  [ '…'].isSuffixOf cs

/-- `isLikelyIncomplete` (closure inside `handleGenerate`; `language` and
`lengthKey` come from the form data). -/
def isLikelyIncomplete (language lengthKey : String) (text : String) : Bool :=
  let isFallback :=
    containsSub zhMarker.data text.data || containsSub enMarker.data text.data ||
    containsSub jaMarker.data text.data
  if isFallback then false
  else
    let hasBody :=
      (language = "中文" && containsSub ("正文").data text.data) ||
      (language = "English" && containsSubCI ("Body").data text.data) ||
      (language = "日本語" && containsSub ("本文").data text.data)
    let hasConclusion :=
      (language = "中文" && (containsSub ("结尾总结").data text.data ||
        containsSub ("总结").data text.data || containsSub ("行动建议").data text.data)) ||
      (language = "English" && containsSubCI ("Conclusion").data text.data) ||
      (language = "日本語" && containsSub ("結論").data text.data)
    let looksTruncated :=
      containsSub ("未完").data text.data || containsSub ("待续").data text.data ||
      endsWith3Dots text.data || endsWithEllipsis text.data
    let count := getCharCount text
    !hasBody || !hasConclusion || looksTruncated || decide (count < tierMin lengthKey)

/-- Whether `handleGenerate` fires the auto-continuation round
(`formData.autoComplete && isLikelyIncomplete(fullText)`). -/
def autoCompleteFires (autoComplete : Bool) (language lengthKey : String) (text : String) : Bool :=
  autoComplete && isLikelyIncomplete language lengthKey text

/-- The entry guards of `handleContinue`: with empty output, fallback
output, or no model selected, the handler reports an error and never issues
the continuation request. -/
def handleContinueIssuesRequest (output modelId : String) : Bool :=
  if output = "" then false
  else if hasFallbackMarker output then false
  else if modelId = "" then false
  else true

/-! ## `clampOutputToLength` -/

/-- `/^#\s*3\.\s+(正文|Body|本文)/.test(l)`. -/
def isBodyTop (l : List Char) : Bool :=
  match l with
  | '#' :: r =>
    let r1 := r.dropWhile jsWs
    r1.take 2 = [ '3', '.'] &&
      (let r2 := r1.drop 2
       let w := r2.takeWhile jsWs
       w ≠ [] && [("正文").data, ("Body").data, ("本文").data].any
         (fun a => a.isPrefixOf (r2.drop w.length)))
  | _ => false

/-- The body-splitting class `。！!？?；;` of
`split(/(?<=。|！|!|？|\?|；|;|\n{2,})/g)`. -/
def sentCls (c : Char) : Bool :=
  c = '。' || c = '！' || c = '!' || c = '？' || c = '?' || c = '；' || c = ';'

/-- The lookbehind split: a split point lies before a character whenever the
preceding character is in the class, or the two preceding characters are
both `\n`.  (The end of the string is never a split point.) -/
def sentAux (prev2 prev1 : Option Char) (cur : List Char) : List Char → List (List Char)
  | [] => [cur.reverse]
  | c :: rest =>
    let boundary := match prev1 with
      | some p => sentCls p || (p = '\n' && prev2 = some '\n')
      | none => false
    if boundary then cur.reverse :: sentAux prev1 (some c) [c] rest
    else sentAux prev1 (some c) (c :: cur) rest

def sentenceSplit (cs : List Char) : List (List Char) :=
  sentAux none none [] cs

/-- The fallback hard clamp: append characters until the running
`getCharCount` reaches the maximum. -/
def hardClampLoop (maxN : Nat) (acc : List Char) : List Char → List Char
  | [] => acc
  | c :: rest =>
    let acc2 := acc ++ [c]
    if maxN ≤ getCharCount (String.mk acc2) then acc2 else hardClampLoop maxN acc2 rest

/-- The per-character tail of the segment loop.  As in the source, each
probe text is `prefix \n chosen+ch \n suffix` — the accumulated partial is
not part of the probe. -/
def segTailLoop (maxN : Nat) (pre suffix chosen acc : List Char) : List Char → List Char
  | [] => acc
  | c :: rest =>
    if maxN < getCharCount (String.mk (pre ++ '\n' :: (chosen ++ [c]) ++ '\n' :: suffix)) then acc
    else segTailLoop maxN pre suffix chosen (acc ++ [c]) rest

/-- The sentence-segment accumulation loop of `clampOutputToLength`. -/
def segLoop (maxN : Nat) (pre suffix chosen : List Char) : List (List Char) → List Char
  | [] => chosen
  | s :: rest =>
    let tentative := chosen ++ s
    if getCharCount (String.mk (pre ++ '\n' :: tentative ++ '\n' :: suffix)) ≤ maxN then
      segLoop maxN pre suffix tentative rest
    else chosen ++ segTailLoop maxN pre suffix chosen [] s

/-- `clampOutputToLength(text, lengthKey, language, allowOverflow)`. -/
def clampOutputToLength (text : String) (lengthKey : String) (language : String)
    (allowOverflow : Bool) : String :=
  if allowOverflow then text
  else
    let maxN := tierMax lengthKey
    let total := getCharCount text
    if total ≤ maxN then text
    else
      let lines := splitNlData text.data
      match lines.findIdx? isBodyTop with
      | none => String.mk (jsTrim (hardClampLoop maxN [] text.data))
      | some idxBodyStart =>
        let bodyEnd := match (lines.drop (idxBodyStart + 1)).findIdx? (isTopN '4') with
          | some r => idxBodyStart + 1 + r
          | none => lines.length
        let pre := joinNl (lines.take (idxBodyStart + 1))
        let body := joinNl (sliceL lines (idxBodyStart + 1) bodyEnd)
        let suffix := joinNl (lines.drop bodyEnd)
        let fixedCount := getCharCount (String.mk (pre ++ '\n' :: suffix))
        if maxN ≤ fixedCount then
          String.mk (jsTrim (pre ++ '\n' :: '\n' :: suffix))
        else
          let segments := ((sentenceSplit body).map jsTrim).filter (· ≠ [])
          let chosen := segLoop maxN pre suffix [] segments
          String.mk (jsTrim (pre ++ '\n' :: chosen ++ '\n' :: suffix))

/-! ## A model of `JSON.parse` for the SSE payloads

The client calls the platform's `JSON.parse` on each frame payload and
swallows exceptions.  The parser below follows the JSON grammar (values,
objects with last-duplicate-key-wins lookup, arrays, strings with escapes
and surrogate-pair combination, numbers kept as lexemes since the client
never reads one, `true`/`false`/`null`), with fuel `length + 1`, which
always suffices because every recursive call first consumes a character. -/

inductive JVal where
  | jnull : JVal
  | jbool : Bool → JVal
  | jnum : List Char → JVal
  | jstr : List Char → JVal
  | jarr : List JVal → JVal
  | jobj : List (List Char × JVal) → JVal

def jsonWsCh (c : Char) : Bool :=
  c = ' ' || c = '\t' || c = '\n' || c = '\r'

def jsonSkipWs (cs : List Char) : List Char :=
  cs.dropWhile jsonWsCh

def hexVal (c : Char) : Option Nat :=
  if '0' ≤ c ∧ c ≤ '9' then some (c.toNat - 48)
  else if 'a' ≤ c ∧ c ≤ 'f' then some (c.toNat - 87)
  else if 'A' ≤ c ∧ c ≤ 'F' then some (c.toNat - 55)
  else none

def parseHex4 (cs : List Char) : Option (Nat × List Char) :=
  match cs with
  | a :: b :: c :: d :: rest =>
    match hexVal a, hexVal b, hexVal c, hexVal d with
    | some x, some y, some z, some w => some (((x * 16 + y) * 16 + z) * 16 + w, rest)
    | _, _, _, _ => none
  | _ => none

/-- JSON string body (after the opening quote); returns the decoded
characters and the remainder after the closing quote. -/
def parseJStrF : Nat → List Char → Option (List Char × List Char)
  | 0, _ => none
  | fuel + 1, cs =>
    match cs with
    | [] => none
    | '"' :: rest => some ([], rest)
    | '\\' :: e :: rest =>
      let cont := fun (ch : Char) (r : List Char) =>
        (parseJStrF fuel r).map (fun p => (ch :: p.1, p.2))
      if e = '"' then cont '"' rest
      else if e = '\\' then cont '\\' rest
      else if e = '/' then cont '/' rest
      else if e = 'b' then cont (Char.ofNat 8) rest
      else if e = 'f' then cont (Char.ofNat 12) rest
      else if e = 'n' then cont '\n' rest
      else if e = 'r' then cont '\r' rest
      else if e = 't' then cont '\t' rest
      else if e = 'u' then
        match parseHex4 rest with
        | none => none
        | some (n, r2) =>
          if 0xD800 ≤ n ∧ n ≤ 0xDBFF then
            match r2 with
            | '\\' :: 'u' :: r3 =>
              match parseHex4 r3 with
              | some (n2, r4) =>
                if 0xDC00 ≤ n2 ∧ n2 ≤ 0xDFFF then
                  cont (Char.ofNat (0x10000 + (n - 0xD800) * 0x400 + (n2 - 0xDC00))) r4
                else cont (Char.ofNat n) r2
              | none => cont (Char.ofNat n) r2
            | _ => cont (Char.ofNat n) r2
          else cont (Char.ofNat n) r2
      else none
    | c :: rest =>
      if c.toNat < 0x20 then none
      else (parseJStrF fuel rest).map (fun p => (c :: p.1, p.2))

/-- JSON number lexeme: `-?(0|[1-9][0-9]*)(\.[0-9]+)?([eE][+-]?[0-9]+)?`. -/
def parseJNum (cs : List Char) : Option (List Char × List Char) :=
  let (sgn, r1) : List Char × List Char :=
    match cs with
    | '-' :: r => ([ '-'], r)
    | _ => ([], cs)
  match r1 with
  | d :: r2 =>
    if ¬ d.isDigit then none
    else
      let (ip, r3) : List Char × List Char :=
        if d = '0' then ([ '0'], r2)
        else (d :: r2.takeWhile Char.isDigit, r2.dropWhile Char.isDigit)
      let (fp, r4) : List Char × List Char :=
        match r3 with
        | '.' :: r =>
          let ds := r.takeWhile Char.isDigit
          if ds = [] then ([], r3) else ('.' :: ds, r.dropWhile Char.isDigit)
        | _ => ([], r3)
      if fp = [] ∧ r3.take 1 = [ '.'] then none
      else
        let (ep, r5) : Option (List Char) × List Char :=
          match r4 with
          | e :: r =>
            if e = 'e' ∨ e = 'E' then
              let (s2, rr) : List Char × List Char :=
                match r with
                | '+' :: r' => ([ '+'], r')
                | '-' :: r' => ([ '-'], r')
                | _ => ([], r)
              let ds := rr.takeWhile Char.isDigit
              if ds = [] then (none, r4) else (some (e :: s2 ++ ds), rr.dropWhile Char.isDigit)
            else (some [], r4)
          | [] => (some [], r4)
        match ep with
        | none => none
        | some e' =>
          if e' = [] then some (sgn ++ ip ++ fp, r4)
          else some (sgn ++ ip ++ fp ++ e', r5)
  | [] => none

/-- Parse the members of an object after `{` (at least one member), given a
value parser for the member values. -/
def parseMembersF (pv : List Char → Option (JVal × List Char)) :
    Nat → List Char → Option (List (List Char × JVal) × List Char)
  | 0, _ => none
  | fuel + 1, cs =>
    match jsonSkipWs cs with
    | '"' :: r =>
      match parseJStrF (r.length + 1) r with
      | none => none
      | some (k, r2) =>
        match jsonSkipWs r2 with
        | ':' :: r3 =>
          match pv r3 with
          | none => none
          | some (v, r4) =>
            match jsonSkipWs r4 with
            | ',' :: r5 =>
              (parseMembersF pv fuel r5).map (fun p => ((k, v) :: p.1, p.2))
            | '}' :: r5 => some ([(k, v)], r5)
            | _ => none
        | _ => none
    | _ => none

/-- Parse the elements of an array after `[` (at least one element). -/
def parseElemsF (pv : List Char → Option (JVal × List Char)) :
    Nat → List Char → Option (List JVal × List Char)
  | 0, _ => none
  | fuel + 1, cs =>
    match pv cs with
    | none => none
    | some (v, r) =>
      match jsonSkipWs r with
      | ',' :: r2 => (parseElemsF pv fuel r2).map (fun p => (v :: p.1, p.2))
      | ']' :: r2 => some ([v], r2)
      | _ => none

/-- Parse one JSON value (with leading whitespace). -/
def parseJValF : Nat → List Char → Option (JVal × List Char)
  | 0, _ => none
  | fuel + 1, cs =>
    match jsonSkipWs cs with
    | [] => none
    | '{' :: rest =>
      match jsonSkipWs rest with
      | '}' :: r => some (.jobj [], r)
      | _ => (parseMembersF (parseJValF fuel) (rest.length + 1) rest).map
          (fun p => (.jobj p.1, p.2))
    | '[' :: rest =>
      match jsonSkipWs rest with
      | ']' :: r => some (.jarr [], r)
      | _ => (parseElemsF (parseJValF fuel) (rest.length + 1) rest).map
          (fun p => (.jarr p.1, p.2))
    | '"' :: rest => (parseJStrF (rest.length + 1) rest).map (fun p => (.jstr p.1, p.2))
    | 't' :: 'r' :: 'u' :: 'e' :: r => some (.jbool true, r)
    | 'f' :: 'a' :: 'l' :: 's' :: 'e' :: r => some (.jbool false, r)
    | 'n' :: 'u' :: 'l' :: 'l' :: r => some (.jnull, r)
    | l => (parseJNum l).map (fun p => (.jnum p.1, p.2))

/-- `JSON.parse(payload)`: one value and nothing but whitespace after it;
`none` models a thrown `SyntaxError`. -/
def jsonParse (cs : List Char) : Option JVal :=
  match parseJValF (cs.length + 1) cs with
  | some (v, rest) => if jsonSkipWs rest = [] then some v else none
  | none => none

/-- Object field access (`undefined` for anything that is not an object
with that key); with duplicate keys `JSON.parse` keeps the last one. -/
def jObjGet (v : JVal) (key : List Char) : Option JVal :=
  match v with
  | .jobj ms => ((ms.filter (fun kv => kv.1 = key)).getLast?).map (fun kv => kv.2)
  | _ => none

/-- `obj.meta && obj.meta.source === "local_fallback_stream"`. -/
def metaIsFallbackStream (v : JVal) : Bool :=
  match jObjGet v ("meta").data with
  | some m =>
    match jObjGet m ("source").data with
    | some (.jstr s) => s = ("local_fallback_stream").data
    | _ => false
  | none => false

/-- The `content` field when it is a string (the only shape this protocol
produces). -/
def contentStr (v : JVal) : Option (List Char) :=
  match jObjGet v ("content").data with
  | some (.jstr s) => some s
  | _ => none

/-! ## The stream-reading loop of `handleGenerate` (lines 628-723)

State: the accumulated `fullText` and the `fallbackStreamHit` flag.  (The
toast bookkeeping and the `setOutput`/`setIsLoading` UI effects do not feed
back into the accumulation and are not part of the state.) -/

structure IngestSt where
  fullText : List Char
  fallbackStreamHit : Bool
deriving DecidableEq, Repr

/-- The body of the `try { const raw = JSON.parse(payload); ... } catch {}`
block: a parse failure leaves the state unchanged; a frame whose `meta`
carries `source: "local_fallback_stream"` raises the flag and appends
nothing; otherwise a truthy `content` is appended. -/
def parseApply (st : IngestSt) (payload : List Char) : IngestSt :=
  match jsonParse payload with
  | none => st
  | some v =>
    if metaIsFallbackStream v then { st with fallbackStreamHit := true }
    else
      match contentStr v with
      | some c => if c ≠ [] then { st with fullText := st.fullText ++ c } else st
      | none => st

/-- Processing of one frame payload: the `[DONE]` sentinel is a no-op. -/
def processPayload (st : IngestSt) (payload : List Char) : IngestSt :=
  if payload = ("[DONE]").data then st else parseApply st payload

/-- `block.split("\n").map(trim).filter(startsWith "data: ").map(slice 6)`. -/
def blockPayloadLines (block : List Char) : List (List Char) :=
  (((splitLfData block).map jsTrim).filter
    (fun l => ("data: ").data.isPrefixOf l)).map (List.drop 6)

def blockPayload (block : List Char) : List Char :=
  (blockPayloadLines block).flatten

/-- Processing of one complete frame block (between two `\n\n`
delimiters): frames without any `data:` line are skipped. -/
def processBlock (st : IngestSt) (block : List Char) : IngestSt :=
  if blockPayloadLines block = [] then st
  else processPayload st (blockPayload block)

/-- `buffer.indexOf("\n\n")`-driven frame extraction: all complete blocks
(in order) and the remaining partial frame. -/
def frames : List Char → List (List Char) × List Char
  | [] => ([], [])
  | [c] => ([], [c])
  | c1 :: c2 :: rest =>
    if c1 = '\n' ∧ c2 = '\n' then
      let p := frames rest
      ([] :: p.1, p.2)
    else
      match frames (c2 :: rest) with
      | (b :: bs, r) => ((c1 :: b) :: bs, r)
      | ([], r) => ([], c1 :: r)

structure StreamSt where
  buffer : List Char
  st : IngestSt
deriving DecidableEq, Repr

/-- One loop iteration of the reader: append the decoded chunk to the
buffer, then process every complete frame found in it. -/
def chunkStep (s : StreamSt) (chunk : List Char) : StreamSt :=
  let p := frames (s.buffer ++ chunk)
  { buffer := p.2, st := p.1.foldl processBlock s.st }

/-- The after-loop handling of a trailing partial frame (lines 687-717):
same payload extraction, applied when the remaining buffer is non-blank and
the payload is neither empty nor the sentinel. -/
def finishTail (st : IngestSt) (buffer : List Char) : IngestSt :=
  if jsTrim buffer ≠ [] then
    let payload := blockPayload buffer
    if payload ≠ [] ∧ payload ≠ ("[DONE]").data then parseApply st payload else st
  else st

def ingestInit : StreamSt :=
  { buffer := [], st := { fullText := [], fallbackStreamHit := false } }

/-- The whole reader on a chunked character stream. -/
def ingestChunksChar (chunks : List (List Char)) : IngestSt :=
  let s := chunks.foldl chunkStep ingestInit
  finishTail s.st s.buffer

/-- `!fullText || fullText.trim().length === 0 || fallbackStreamHit`: the
condition under which `handleGenerate` issues the non-streaming retry after
the stream ends (line 723). -/
def retriesNonStream (st : IngestSt) : Bool :=
  st.fullText = [] || jsTrim st.fullText = [] || st.fallbackStreamHit

/-! ## The `TextDecoder` model (WHATWG incremental UTF-8 decoding)

`handleGenerate` decodes each network chunk with
`decoder.decode(value, { stream: true })`: complete UTF-8 sequences are
decoded, a trailing incomplete (still potentially valid) sequence is kept
as pending bytes for the next chunk, and invalid bytes become U+FFFD with
the offending byte reprocessed.  (The code never calls the final flush, so
pending bytes left at stream end are dropped.) -/

def replCh : Char := Char.ofNat 0xFFFD

def utf8Push (c : Char) (p : List Char × List Nat) : List Char × List Nat :=
  (c :: p.1, p.2)

/-- Lower bound for the first continuation byte of a three-byte lead. -/
def cLow3 (b : Nat) : Nat := if b = 0xE0 then 0xA0 else 0x80

/-- Upper bound for the first continuation byte of a three-byte lead. -/
def cHigh3 (b : Nat) : Nat := if b = 0xED then 0x9F else 0xBF

/-- Lower bound for the first continuation byte of a four-byte lead. -/
def cLow4 (b : Nat) : Nat := if b = 0xF0 then 0x90 else 0x80

/-- Upper bound for the first continuation byte of a four-byte lead. -/
def cHigh4 (b : Nat) : Nat := if b = 0xF4 then 0x8F else 0xBF

/-- Decode the longest complete prefix; return the decoded characters and
the pending (incomplete but still valid) trailing bytes. -/
def utf8DecodeAux : List Nat → List Char × List Nat
  | [] => ([], [])
  | b :: bs =>
    if b ≤ 0x7F then utf8Push (Char.ofNat b) (utf8DecodeAux bs)
    else if 0xC2 ≤ b ∧ b ≤ 0xDF then
      match bs with
      | [] => ([], [b])
      | c1 :: bs1 =>
        if 0x80 ≤ c1 ∧ c1 ≤ 0xBF then
          utf8Push (Char.ofNat ((b - 0xC0) * 0x40 + (c1 - 0x80))) (utf8DecodeAux bs1)
        else utf8Push replCh (utf8DecodeAux (c1 :: bs1))
    else if 0xE0 ≤ b ∧ b ≤ 0xEF then
      match bs with
      | [] => ([], [b])
      | c1 :: bs1 =>
        if cLow3 b ≤ c1 ∧ c1 ≤ cHigh3 b then
          match bs1 with
          | [] => ([], [b, c1])
          | c2 :: bs2 =>
            if 0x80 ≤ c2 ∧ c2 ≤ 0xBF then
              utf8Push (Char.ofNat ((b - 0xE0) * 0x1000 + (c1 - 0x80) * 0x40 + (c2 - 0x80)))
                (utf8DecodeAux bs2)
            else utf8Push replCh (utf8DecodeAux (c2 :: bs2))
        else utf8Push replCh (utf8DecodeAux (c1 :: bs1))
    else if 0xF0 ≤ b ∧ b ≤ 0xF4 then
      match bs with
      | [] => ([], [b])
      | c1 :: bs1 =>
        if cLow4 b ≤ c1 ∧ c1 ≤ cHigh4 b then
          match bs1 with
          | [] => ([], [b, c1])
          | c2 :: bs2 =>
            if 0x80 ≤ c2 ∧ c2 ≤ 0xBF then
              match bs2 with
              | [] => ([], [b, c1, c2])
              | c3 :: bs3 =>
                if 0x80 ≤ c3 ∧ c3 ≤ 0xBF then
                  utf8Push (Char.ofNat ((b - 0xF0) * 0x40000 + (c1 - 0x80) * 0x1000 +
                    (c2 - 0x80) * 0x40 + (c3 - 0x80))) (utf8DecodeAux bs3)
                else utf8Push replCh (utf8DecodeAux (c3 :: bs3))
            else utf8Push replCh (utf8DecodeAux (c2 :: bs2))
        else utf8Push replCh (utf8DecodeAux (c1 :: bs1))
    else utf8Push replCh (utf8DecodeAux bs)

/-- The byte-level reader state: decoder pending bytes plus the frame
buffer and accumulation state. -/
structure ByteStreamSt where
  pending : List Nat
  inner : StreamSt
deriving DecidableEq, Repr

/-- One loop iteration on a raw byte chunk: incremental decode, then the
buffer/frame step on the decoded text. -/
def byteChunkStep (s : ByteStreamSt) (chunk : List Nat) : ByteStreamSt :=
  let p := utf8DecodeAux (s.pending ++ chunk)
  { pending := p.2, inner := chunkStep s.inner p.1 }

def byteInit : ByteStreamSt :=
  { pending := [], inner := ingestInit }

/-- The whole reader on a chunked byte stream. -/
def ingestBytes (chunks : List (List Nat)) : IngestSt :=
  let s := chunks.foldl byteChunkStep byteInit
  finishTail s.inner.st s.inner.buffer

/-! ## `src/lib/history.ts` (local history store)

The store is the parsed content of `localStorage["writingHistory"]`,
modelled as the stored list of items.  `Date.now()` and the random id are
inputs of the operations. -/

structure HistoryItem where
  id : String
  keyword : String
  description : String
  output : String
  modelId : String
  language : String
  tone : String
  role : String
  lengthKey : String
  template : Option String
  timestamp : Nat
  isFavorite : Bool
deriving DecidableEq, Repr

/-- The fields of `Omit<HistoryItem, "id" | "timestamp">`. -/
structure HistoryFields where
  keyword : String
  description : String
  output : String
  modelId : String
  language : String
  tone : String
  role : String
  lengthKey : String
  template : Option String
  isFavorite : Bool
deriving DecidableEq, Repr

def mkHistoryItem (f : HistoryFields) (rid : String) (now : Nat) : HistoryItem :=
  { id := rid, keyword := f.keyword, description := f.description,
    output := f.output, modelId := f.modelId, language := f.language,
    tone := f.tone, role := f.role, lengthKey := f.lengthKey,
    template := f.template, timestamp := now, isFavorite := f.isFavorite }

/-- `history.sort((a, b) => b.timestamp - a.timestamp)`: stable sort by
descending timestamp (`getHistory` sorts on every read). -/
def getHistory (store : List HistoryItem) : List HistoryItem :=
  store.mergeSort (fun a b => decide (b.timestamp ≤ a.timestamp))

def MAX_HISTORY_ITEMS : Nat := 20

/-- `addToHistory`: prepend the freshly built item to the (sorted) history
and keep at most `MAX_HISTORY_ITEMS`; returns the stored list and the new
item. -/
def addToHistory (store : List HistoryItem) (f : HistoryFields) (rid : String)
    (now : Nat) : List HistoryItem × HistoryItem :=
  let newItem := mkHistoryItem f rid now
  ((newItem :: getHistory store).take MAX_HISTORY_ITEMS, newItem)

/-- `deleteHistoryItem`. -/
def deleteHistoryItem (store : List HistoryItem) (idv : String) : List HistoryItem :=
  (getHistory store).filter (fun item => item.id ≠ idv)

/-- `toggleFavorite`. -/
def toggleFavorite (store : List HistoryItem) (idv : String) : List HistoryItem :=
  (getHistory store).map (fun item =>
    if item.id = idv then { item with isFavorite := !item.isFavorite } else item)

/-- `Partial<Omit<HistoryItem, "id">>` updates: optional field overrides
(the `timestamp` is forced to `Date.now()` afterwards in the source). -/
structure HistoryUpdates where
  output : Option String
  keyword : Option String
  isFavorite : Option Bool
deriving DecidableEq, Repr

def applyUpdates (item : HistoryItem) (u : HistoryUpdates) (now : Nat) : HistoryItem :=
  { item with
    output := u.output.getD item.output,
    keyword := u.keyword.getD item.keyword,
    isFavorite := u.isFavorite.getD item.isFavorite,
    timestamp := now }

/-- `updateHistoryItem`: map over the sorted history; when no item carries
the id, nothing is persisted. -/
def updateHistoryItem (store : List HistoryItem) (idv : String) (u : HistoryUpdates)
    (now : Nat) : List HistoryItem :=
  if (getHistory store).any (fun item => item.id = idv) then
    (getHistory store).map (fun item =>
      if item.id = idv then applyUpdates item u now else item)
  else store

/-- The store operations named by the claim. -/
inductive HistOp where
  | add (f : HistoryFields) (rid : String) (now : Nat)
  | del (idv : String)
  | fav (idv : String)
  | upd (idv : String) (u : HistoryUpdates) (now : Nat)
deriving DecidableEq, Repr

def applyHistOp (store : List HistoryItem) : HistOp → List HistoryItem
  | .add f rid now => (addToHistory store f rid now).1
  | .del idv => deleteHistoryItem store idv
  | .fav idv => toggleFavorite store idv
  | .upd idv u now => updateHistoryItem store idv u now

/-! ## The server route `src/app/api/generate/route.ts`: local fallback stub

On an upstream error with status in `[429, 500, 502, 503, 504, 403, 404]`
the route synthesizes a language-switched stub document (identical template
in the non-streaming branch, returned as `{content, meta}` with
`X-Source: local_fallback`, and the streaming branch, emitted as a single
`data:` frame with `meta.source = "local_fallback_stream"`).  The string
literals below are the source's template pieces, split at their embedded
newlines. -/

/-- `lengthConfig[length].wordCount` (`?? lengthConfig.medium`). -/
def lcWordCount (lengthKey : String) : String :=
  if lengthKey = "short" then "300-500字"
  else if lengthKey = "medium" then "800-1200字"
  else if lengthKey = "long" then "1500-2200字"
  else "800-1200字"

def nlStr : String := "\n"

def fallbackStubEn (kw desc wc : String) : String :=
  "Notice: This is locally generated fallback content due to remote generation failure or rate limit. For reference only." ++ nlStr ++ nlStr ++
  "1. Title Candidates" ++ nlStr ++
  "1. " ++ kw ++ ": Key Points and Practice" ++ nlStr ++
  "2. " ++ kw ++ " Strategy Guide" ++ nlStr ++
  "3. " ++ kw ++ " Case Notes" ++ nlStr ++ nlStr ++
  "2. Outline" ++ nlStr ++
  "1. Background and Goals" ++ nlStr ++
  "2. Key Points" ++ nlStr ++
  "3. Cases and Practice" ++ nlStr ++
  "4. Risks and Measures" ++ nlStr ++
  "5. Summary" ++ nlStr ++ nlStr ++
  "3. Body (" ++ wc ++ ")" ++ nlStr ++
  kw ++ " — " ++ desc ++ nlStr ++ nlStr ++
  "4. Conclusion" ++ nlStr

def fallbackStubJa (kw desc wc : String) : String :=
  "注意：これは生成失敗・レート制限時のローカルフォールバックです。参考用。" ++ nlStr ++ nlStr ++
  "1. タイトル候補" ++ nlStr ++
  "1. " ++ kw ++ "の要点と実践" ++ nlStr ++
  "2. " ++ kw ++ "戦略ガイド" ++ nlStr ++
  "3. " ++ kw ++ "ケースメモ" ++ nlStr ++ nlStr ++
  "2. アウトライン" ++ nlStr ++
  "1. 背景と目的" ++ nlStr ++
  "2. 重要ポイント" ++ nlStr ++
  "3. 事例と実践" ++ nlStr ++
  "4. リスクと対策" ++ nlStr ++
  "5. まとめ" ++ nlStr ++ nlStr ++
  "3. 本文（" ++ wc ++ "）" ++ nlStr ++
  kw ++ " — " ++ desc ++ nlStr ++ nlStr ++
  "4. 結論" ++ nlStr

def fallbackStubZh (kw desc wc : String) : String :=
  "提示：当前内容为生成失败后的兜底内容（本地生成），仅供参考。" ++ nlStr ++ nlStr ++
  "1. 标题候选" ++ nlStr ++
  "1. " ++ kw ++ "：核心要点与实践" ++ nlStr ++
  "2. " ++ kw ++ "应用攻略" ++ nlStr ++
  "3. " ++ kw ++ "策略笔记" ++ nlStr ++ nlStr ++
  "2. 内容大纲" ++ nlStr ++
  "1. 背景与目标" ++ nlStr ++
  "2. 关键观点" ++ nlStr ++
  "3. 案例与实践" ++ nlStr ++
  "4. 风险与对策" ++ nlStr ++
  "5. 总结" ++ nlStr ++ nlStr ++
  "3. 正文（" ++ wc ++ "）" ++ nlStr ++
  kw ++ " — " ++ desc ++ nlStr ++ nlStr ++
  "4. 结尾总结" ++ nlStr

/-- The language switch of the stub builder. -/
def fallbackStub (kw desc lengthKey language : String) : String :=
  let wc := lcWordCount lengthKey
  if language = "English" then fallbackStubEn kw desc wc
  else if language = "日本語" then fallbackStubJa kw desc wc
  else fallbackStubZh kw desc wc

/-- `[429, 500, 502, 503, 504, 403, 404].includes(resp.status)`. -/
def fallbackGateStatuses : List Nat := [429, 500, 502, 503, 504, 403, 404]

/-- The `switch (resp.status)` classifying the failure. -/
def failureTypeOf (status : Nat) : String :=
  if status = 400 then "code"
  else if status = 401 ∨ status = 403 then "code"
  else if status = 404 then "code"
  else if status = 429 then "API"
  else if status = 502 ∨ status = 504 ∨ status = 500 ∨ status = 503 then "API"
  else "unknown"

/-- The non-streaming branch on an upstream error status: for gated
statuses a 200 response carrying the stub and failure type (as
`meta`/`X-` headers); otherwise the mapped error is returned instead. -/
def syncErrorFallback (status : Nat) (kw desc lengthKey language : String) :
    Option (String × String) :=
  if status ∈ fallbackGateStatuses then
    some (fallbackStub kw desc lengthKey language, failureTypeOf status)
  else none

/-- The fixed language-specific marker sentence the stub begins with. -/
def markerOf (language : String) : String :=
  if language = "English" then enMarker
  else if language = "日本語" then jaMarker
  else zhMarker

/-- The canonical section-header lines of the stub for a language (with the
body header carrying the word-count range). -/
def canonSectionIdx (language : String) (wc : String) (l : List Char) : Option Nat :=
  if language = "English" then
    if l = ("1. Title Candidates").data then some 1
    else if l = ("2. Outline").data then some 2
    else if l = ("3. Body (").data ++ wc.data ++ (")").data then some 3
    else if l = ("4. Conclusion").data then some 4
    else none
  else if language = "日本語" then
    if l = ("1. タイトル候補").data then some 1
    else if l = ("2. アウトライン").data then some 2
    else if l = ("3. 本文（").data ++ wc.data ++ ("）").data then some 3
    else if l = ("4. 結論").data then some 4
    else none
  else
    if l = ("1. 标题候选").data then some 1
    else if l = ("2. 内容大纲").data then some 2
    else if l = ("3. 正文（").data ++ wc.data ++ ("）").data then some 3
    else if l = ("4. 结尾总结").data then some 4
    else none

/-- The lines of the English stub, as produced by splitting at the
template's newlines. -/
def stubLinesListEn (kw desc wc : String) : List (List Char) :=
  [ ("Notice: This is locally generated fallback content due to remote generation failure or rate limit. For reference only.").data,
    [],
    ("1. Title Candidates").data,
    ("1. ").data ++ kw.data ++ (": Key Points and Practice").data,
    ("2. ").data ++ kw.data ++ (" Strategy Guide").data,
    ("3. ").data ++ kw.data ++ (" Case Notes").data,
    [],
    ("2. Outline").data,
    ("1. Background and Goals").data,
    ("2. Key Points").data,
    ("3. Cases and Practice").data,
    ("4. Risks and Measures").data,
    ("5. Summary").data,
    [],
    ("3. Body (").data ++ wc.data ++ (")").data,
    kw.data ++ (" — ").data ++ desc.data,
    [],
    ("4. Conclusion").data,
    [] ]

/-- The lines of the Japanese stub. -/
def stubLinesListJa (kw desc wc : String) : List (List Char) :=
  [ ("注意：これは生成失敗・レート制限時のローカルフォールバックです。参考用。").data,
    [],
    ("1. タイトル候補").data,
    ("1. ").data ++ kw.data ++ ("の要点と実践").data,
    ("2. ").data ++ kw.data ++ ("戦略ガイド").data,
    ("3. ").data ++ kw.data ++ ("ケースメモ").data,
    [],
    ("2. アウトライン").data,
    ("1. 背景と目的").data,
    ("2. 重要ポイント").data,
    ("3. 事例と実践").data,
    ("4. リスクと対策").data,
    ("5. まとめ").data,
    [],
    ("3. 本文（").data ++ wc.data ++ ("）").data,
    kw.data ++ (" — ").data ++ desc.data,
    [],
    ("4. 結論").data,
    [] ]

/-- The lines of the Chinese stub. -/
def stubLinesListZh (kw desc wc : String) : List (List Char) :=
  [ ("提示：当前内容为生成失败后的兜底内容（本地生成），仅供参考。").data,
    [],
    ("1. 标题候选").data,
    ("1. ").data ++ kw.data ++ ("：核心要点与实践").data,
    ("2. ").data ++ kw.data ++ ("应用攻略").data,
    ("3. ").data ++ kw.data ++ ("策略笔记").data,
    [],
    ("2. 内容大纲").data,
    ("1. 背景与目标").data,
    ("2. 关键观点").data,
    ("3. 案例与实践").data,
    ("4. 风险与对策").data,
    ("5. 总结").data,
    [],
    ("3. 正文（").data ++ wc.data ++ ("）").data,
    kw.data ++ (" — ").data ++ desc.data,
    [],
    ("4. 结尾总结").data,
    [] ]

/-- Newline-freedom of a list of characters, as used by the
line-splitting lemmas. -/
def nlFree (l : List Char) : Bool :=
  l.all (fun c => !(c = '\n' || c = '\r'))

/-- A document whose prefix/suffix sections alone exceed the `short`
maximum: the `budget <= 0` branch returns them in full. -/
def exC3 : String := String.mk (("# 3. Body\nw\n# 4. Conclusion\n").data ++
  List.replicate 600 'a')

/-- The two-frame stream of the C4 scenario: a fallback-meta frame followed
by a content frame. -/
def sC4 : String :=
  "data: \x7b\"meta\":\x7b\"source\":\"local_fallback_stream\"\x7d\x7d\n\ndata: \x7b\"content\":\"X\"\x7d\n\n"

/-- A document in the canonical shape the pipeline produces: the four
canonical Chinese headers in order. -/
def dCanon : String :=
  "# 1. 标题候选(3个)\n## A\n# 2. 内容大纲\n## B\n# 3. 正文\ntext\n# 4. 结尾总结\ndone"

/-- A document with the four sections present but interleaved out of
order: the renumbering pass duplicates lines, so a second pass differs. -/
def exC1 : String :=
  "# 1. Title Candidates\n## A\n# 3. Body\ntext3\n# 2. Outline\n## B\n# 4. Conclusion\ndone"

/-- The end of the reordered span: the next top header after section 4, or
the end of the document (the `endAbs` of `normalizeTopSections`). -/
def topEndAbs (lines : List (List Char)) (i4 : Nat) : Nat :=
  match (lines.drop (i4 + 1)).findIdx? isTopHeader with
  | some r => i4 + 1 + r
  | none => lines.length

/-- A document with the four canonical sections already in order. -/
def dC2w : String :=
  "# 1. Title Candidates\nA\n# 2. Outline\nB\n# 3. Body\nC\n# 4. Conclusion\nD"

/-- A document with the four sections located but interleaved (1,3,2,4). -/
def exC2 : String :=
  "# 1. Title Candidates\nA\n# 3. Body\nB\n# 2. Outline\nC\n# 4. Conclusion\nD"

/-- A marker-free document with two section-1 headers and body text. -/
def dC7w : String := "intro\n# 1. alpha\nbody\n# 1. beta\ntail"

/-- A marker-free document whose first section-1 header ends in a space
and is immediately followed by the second. -/
def exC7 : String := "# 1. \n# 1. y"

/-! ## Chunk-split invariance lemmas -/

theorem frames_nil_fst (l : List Char) : (frames l).1 = [] → (frames l).2 = l := by
  induction l using frames.induct with
  | case1 => intro _; rfl
  | case2 c => intro _; rfl
  | case3 c1 c2 rest h ih =>
    intro hfst
    simp only [frames, if_pos h] at hfst
    exact absurd hfst (List.cons_ne_nil _ _)
  | case4 c1 c2 rest h b bs r he ih =>
    intro hfst
    simp only [frames, if_neg h, he] at hfst
    exact absurd hfst (List.cons_ne_nil _ _)
  | case5 c1 c2 rest h r he ih =>
    intro hfst
    have h2 : r = c2 :: rest := by
      have := ih (by rw [he])
      rw [he] at this
      exact this
    simp only [frames, if_neg h, he]
    rw [h2]

theorem frames_append (a : List Char) : ∀ b,
    frames (a ++ b) =
      ((frames a).1 ++ (frames ((frames a).2 ++ b)).1,
       (frames ((frames a).2 ++ b)).2) := by
  induction a using frames.induct with
  | case1 => intro b; simp [frames]
  | case2 c =>
    intro b
    simp only [frames, List.cons_append, List.nil_append, List.nil_append]
  | case3 c1 c2 rest h ih =>
    intro b
    have lhs : frames ((c1 :: c2 :: rest) ++ b) =
        ([] :: (frames (rest ++ b)).1, (frames (rest ++ b)).2) := by
      simp only [List.cons_append, frames, if_pos h]
      rfl
    rw [lhs, ih b]
    simp only [frames, if_pos h]
    simp
  | case4 c1 c2 rest h b' bs r he ih =>
    intro b
    have lhs : frames ((c1 :: c2 :: rest) ++ b) =
        (match frames ((c2 :: rest) ++ b) with
          | (bb :: bbs, rr) => ((c1 :: bb) :: bbs, rr)
          | ([], rr) => ([], c1 :: rr)) := by
      simp only [List.cons_append, frames, if_neg h]
      rfl
    rw [lhs, ih b]
    rw [he]
    simp only [frames, if_neg h, he]
    simp
  | case5 c1 c2 rest h r he ih =>
    intro b
    have hr : r = c2 :: rest := by
      have := frames_nil_fst (c2 :: rest) (by rw [he])
      rw [he] at this
      exact this
    have lhs : frames ((c1 :: c2 :: rest) ++ b) =
        (match frames ((c2 :: rest) ++ b) with
          | (bb :: bbs, rr) => ((c1 :: bb) :: bbs, rr)
          | ([], rr) => ([], c1 :: rr)) := by
      simp only [List.cons_append, frames, if_neg h]
      rfl
    rw [lhs, ih b]
    rw [he]
    simp only [frames, if_neg h, he, hr]
    simp [hr]

theorem chunkStep_append (s : StreamSt) (a b : List Char) :
    chunkStep (chunkStep s a) b = chunkStep s (a ++ b) := by
  unfold chunkStep
  dsimp only
  rw [← List.append_assoc, frames_append (s.buffer ++ a) b]
  simp [List.foldl_append]

/-- A decoding step that consumes the head bytes `H` and emits one
character behaves homomorphically for the append law. -/
theorem utf8_consume_generic (H : List Nat) (ch : Char) (T : List Nat)
    (hstepT : utf8DecodeAux (H ++ T) = utf8Push ch (utf8DecodeAux T))
    (hstepTy : ∀ y, utf8DecodeAux (H ++ (T ++ y)) = utf8Push ch (utf8DecodeAux (T ++ y)))
    (ih : ∀ y, utf8DecodeAux (T ++ y) =
      ((utf8DecodeAux T).1 ++ (utf8DecodeAux ((utf8DecodeAux T).2 ++ y)).1,
       (utf8DecodeAux ((utf8DecodeAux T).2 ++ y)).2))
    (y : List Nat) :
    utf8DecodeAux ((H ++ T) ++ y) =
      ((utf8DecodeAux (H ++ T)).1 ++ (utf8DecodeAux ((utf8DecodeAux (H ++ T)).2 ++ y)).1,
       (utf8DecodeAux ((utf8DecodeAux (H ++ T)).2 ++ y)).2) := by
  rw [List.append_assoc, hstepTy y, ih y, hstepT]
  simp [utf8Push]

/-- Incremental decoding is chunk-split invariant: decoding `x ++ y` equals
decoding `x`, then decoding its pending bytes together with `y`. -/
theorem utf8DecodeAux_append (x : List Nat) : ∀ y,
    utf8DecodeAux (x ++ y) =
      ((utf8DecodeAux x).1 ++ (utf8DecodeAux ((utf8DecodeAux x).2 ++ y)).1,
       (utf8DecodeAux ((utf8DecodeAux x).2 ++ y)).2) := by
  induction x using utf8DecodeAux.induct with
  | case1 => intro y; rfl
  | case2 c1 bs1 h1 ih =>
    intro y
    exact utf8_consume_generic [c1] (Char.ofNat c1) bs1
      (by rw [utf8DecodeAux.eq_def]; simp [h1, utf8Push])
      (fun u => by rw [utf8DecodeAux.eq_def]; simp [h1, utf8Push]) ih y
  | case3 c1 h1 h2 =>
    intro y
    have hx : utf8DecodeAux [c1] = ([], [c1]) := by
      rw [utf8DecodeAux.eq_def]; simp [h1, h2]
    rw [hx]
    rfl
  | case4 c1 h1 h2 c2 bs1 hc ih =>
    intro y
    exact utf8_consume_generic [c1, c2] (Char.ofNat ((c1 - 0xC0) * 0x40 + (c2 - 0x80))) bs1
      (by rw [utf8DecodeAux.eq_def]; simp [h1, h2, hc, utf8Push])
      (fun u => by rw [utf8DecodeAux.eq_def]; simp [h1, h2, hc, utf8Push]) ih y
  | case5 c1 h1 h2 c2 bs1 hb ih =>
    intro y
    exact utf8_consume_generic [c1] replCh (c2 :: bs1)
      (by rw [utf8DecodeAux.eq_def]; simp [h1, h2, hb, utf8Push])
      (fun u => by rw [utf8DecodeAux.eq_def]; simp [h1, h2, hb, utf8Push]) ih y
  | case6 c1 h1 h2 h3 =>
    intro y
    have hx : utf8DecodeAux [c1] = ([], [c1]) := by
      rw [utf8DecodeAux.eq_def]; simp [h1, h2, h3]
    rw [hx]
    rfl
  | case7 c1 h1 h2 h3 c2 hc =>
    intro y
    have hx : utf8DecodeAux [c1, c2] = ([], [c1, c2]) := by
      rw [utf8DecodeAux.eq_def]; simp [h1, h2, h3, hc]
    rw [hx]
    rfl
  | case8 c1 h1 h2 h3 c2 hc1 c3 bs1 hc2 ih =>
    intro y
    exact utf8_consume_generic [c1, c2, c3]
      (Char.ofNat ((c1 - 0xE0) * 0x1000 + (c2 - 0x80) * 0x40 + (c3 - 0x80))) bs1
      (by rw [utf8DecodeAux.eq_def]; simp [h1, h2, h3, hc1, hc2, utf8Push])
      (fun u => by rw [utf8DecodeAux.eq_def]; simp [h1, h2, h3, hc1, hc2, utf8Push]) ih y
  | case9 c1 h1 h2 h3 c2 hc1 c3 bs1 hb ih =>
    intro y
    exact utf8_consume_generic [c1, c2] replCh (c3 :: bs1)
      (by rw [utf8DecodeAux.eq_def]; simp [h1, h2, h3, hc1, hb, utf8Push])
      (fun u => by rw [utf8DecodeAux.eq_def]; simp [h1, h2, h3, hc1, hb, utf8Push]) ih y
  | case10 c1 h1 h2 h3 c2 bs1 hb ih =>
    intro y
    exact utf8_consume_generic [c1] replCh (c2 :: bs1)
      (by rw [utf8DecodeAux.eq_def]; simp [h1, h2, h3, hb, utf8Push])
      (fun u => by rw [utf8DecodeAux.eq_def]; simp [h1, h2, h3, hb, utf8Push]) ih y
  | case11 c1 h1 h2 h3 h4 =>
    intro y
    have hx : utf8DecodeAux [c1] = ([], [c1]) := by
      rw [utf8DecodeAux.eq_def]; simp [h1, h2, h3, h4]
    rw [hx]
    rfl
  | case12 c1 h1 h2 h3 h4 c2 hc1 =>
    intro y
    have hx : utf8DecodeAux [c1, c2] = ([], [c1, c2]) := by
      rw [utf8DecodeAux.eq_def]; simp [h1, h2, h3, h4, hc1]
    rw [hx]
    rfl
  | case13 c1 h1 h2 h3 h4 c2 hc1 c3 hc2 =>
    intro y
    have hx : utf8DecodeAux [c1, c2, c3] = ([], [c1, c2, c3]) := by
      rw [utf8DecodeAux.eq_def]; simp [h1, h2, h3, h4, hc1, hc2]
    rw [hx]
    rfl
  | case14 c1 h1 h2 h3 h4 c2 hc1 c3 hc2 c4 bs1 hc3 ih =>
    intro y
    exact utf8_consume_generic [c1, c2, c3, c4]
      (Char.ofNat ((c1 - 0xF0) * 0x40000 + (c2 - 0x80) * 0x1000 + (c3 - 0x80) * 0x40 + (c4 - 0x80))) bs1
      (by rw [utf8DecodeAux.eq_def]; simp [h1, h2, h3, h4, hc1, hc2, hc3, utf8Push])
      (fun u => by rw [utf8DecodeAux.eq_def]; simp [h1, h2, h3, h4, hc1, hc2, hc3, utf8Push]) ih y
  | case15 c1 h1 h2 h3 h4 c2 hc1 c3 hc2 c4 bs1 hb ih =>
    intro y
    exact utf8_consume_generic [c1, c2, c3] replCh (c4 :: bs1)
      (by rw [utf8DecodeAux.eq_def]; simp [h1, h2, h3, h4, hc1, hc2, hb, utf8Push])
      (fun u => by rw [utf8DecodeAux.eq_def]; simp [h1, h2, h3, h4, hc1, hc2, hb, utf8Push]) ih y
  | case16 c1 h1 h2 h3 h4 c2 hc1 c3 bs1 hb ih =>
    intro y
    exact utf8_consume_generic [c1, c2] replCh (c3 :: bs1)
      (by rw [utf8DecodeAux.eq_def]; simp [h1, h2, h3, h4, hc1, hb, utf8Push])
      (fun u => by rw [utf8DecodeAux.eq_def]; simp [h1, h2, h3, h4, hc1, hb, utf8Push]) ih y
  | case17 c1 h1 h2 h3 h4 c2 bs1 hb ih =>
    intro y
    exact utf8_consume_generic [c1] replCh (c2 :: bs1)
      (by rw [utf8DecodeAux.eq_def]; simp [h1, h2, h3, h4, hb, utf8Push])
      (fun u => by rw [utf8DecodeAux.eq_def]; simp [h1, h2, h3, h4, hb, utf8Push]) ih y
  | case18 c1 bs1 h1 h2 h3 h4 ih =>
    intro y
    exact utf8_consume_generic [c1] replCh bs1
      (by rw [utf8DecodeAux.eq_def]; simp [h1, h2, h3, h4, utf8Push])
      (fun u => by rw [utf8DecodeAux.eq_def]; simp [h1, h2, h3, h4, utf8Push]) ih y

theorem byteChunkStep_append (s : ByteStreamSt) (a b : List Nat) :
    byteChunkStep (byteChunkStep s a) b = byteChunkStep s (a ++ b) := by
  unfold byteChunkStep
  dsimp only
  rw [← List.append_assoc, utf8DecodeAux_append (s.pending ++ a) b]
  rw [chunkStep_append]

theorem foldl_byteChunkStep (chunks : List (List Nat)) : ∀ (s : ByteStreamSt) (a : List Nat),
    chunks.foldl byteChunkStep (byteChunkStep s a) =
      byteChunkStep s (a ++ chunks.flatten) := by
  induction chunks with
  | nil => intro s a; simp
  | cons c rest ih =>
    intro s a
    simp only [List.foldl_cons, List.flatten_cons]
    rw [byteChunkStep_append, ih, List.append_assoc]

/-! ## Lemmas about line splitting -/

theorem splitNlData_ne_nil (l : List Char) : splitNlData l ≠ [] := by
  induction l using splitNlData.induct with
  | case1 => simp [splitNlData]
  | case2 => simp [splitNlData]
  | case3 c hc => simp [splitNlData, hc]
  | case4 c1 c2 rest h ih => simp [splitNlData, h, ih]
  | case5 c2 rest h ih => simp [splitNlData, h]
  | case6 c1 c2 rest h1 h2 ih =>
    simp only [splitNlData, if_neg h1, if_neg h2]
    cases he : splitNlData (c2 :: rest) with
    | nil => exact absurd he ih
    | cons x xs => simp [List.modifyHead]

theorem splitNlData_cons_nl (rest : List Char) :
    splitNlData ('\n' :: rest) = [] :: splitNlData rest := by
  cases rest with
  | nil => rfl
  | cons d t =>
    have h1 : ¬ (('\n' : Char) = '\r' ∧ d = '\n') := by
      intro hh
      exact absurd hh.1 (by decide)
    show splitNlData ('\n' :: d :: t) = _
    rw [splitNlData.eq_def]
    simp only [if_neg h1, if_pos rfl, if_true]

/-- Splitting after a newline-free (and `\r`-free) prefix prepends that
prefix to the first line of the rest. -/
theorem splitNl_app (a : List Char) :
    ∀ rest, a.all (fun c => !(c = '\n' || c = '\r')) = true →
      splitNlData (a ++ rest) = (splitNlData rest).modifyHead (a ++ ·) := by
  induction a with
  | nil =>
    intro rest _
    cases he : splitNlData rest with
    | nil => exact absurd he (splitNlData_ne_nil rest)
    | cons x xs => simp [he, List.modifyHead]
  | cons c a' ih =>
    intro rest hall
    simp only [List.all_cons, Bool.and_eq_true, Bool.not_eq_true',
      Bool.or_eq_false_iff, decide_eq_false_iff_not] at hall
    obtain ⟨⟨hcn, hcr⟩, hall'⟩ := hall
    cases har : a' ++ rest with
    | nil =>
      have ha' : a' = [] := by
        cases a' <;> simp_all
      have hr : rest = [] := by
        cases a' <;> simp_all
      subst ha'
      subst hr
      simp [splitNlData, hcn, List.modifyHead]
    | cons d t =>
      have hnd : ¬ (c = '\r' ∧ d = '\n') := by
        intro hh
        exact hcr hh.1
      have lhs : splitNlData ((c :: a') ++ rest) =
          (splitNlData (a' ++ rest)).modifyHead (c :: ·) := by
        rw [List.cons_append, har, splitNlData.eq_def]
        simp only [if_neg hnd, if_neg hcn]
      rw [lhs, ih rest (by simpa using hall')]
      cases he : splitNlData rest with
      | nil => exact absurd he (splitNlData_ne_nil rest)
      | cons x xs => simp [List.modifyHead]

/-- Splitting an intercalation of newline-free lines recovers the lines. -/
theorem splitNl_intercalate (L : List (List Char)) (hL : L ≠ [])
    (h : ∀ l ∈ L, l.all (fun c => !(c = '\n' || c = '\r')) = true) :
    splitNlData (List.intercalate [ '\n'] L) = L := by
  induction L with
  | nil => exact absurd rfl hL
  | cons x t ih =>
    cases t with
    | nil =>
      have hx := h x (by simp)
      have hone : List.intercalate [ '\n'] [x] = x ++ [] := by
        simp [List.intercalate]
      rw [hone, splitNl_app x [] hx]
      simp [splitNlData, List.modifyHead]
    | cons y t' =>
      have hx := h x (by simp)
      have hstep : List.intercalate [ '\n'] (x :: y :: t') =
          x ++ ('\n' :: List.intercalate [ '\n'] (y :: t')) := by
        simp [List.intercalate, List.flatten]
      rw [hstep, splitNl_app x _ hx, splitNlData_cons_nl,
        ih (by simp) (fun l hl => h l (by simp [hl]))]
      simp [List.modifyHead]

/-- Lists differing at some member are different. -/
theorem ne_of_memb (x y : List Char) (c : Char) (hc : c ∈ x) (hn : c ∉ y) : x ≠ y :=
  fun he => hn (he ▸ hc)

/-- Lists whose reversals have different heads are different. -/
theorem ne_of_rev (x y : List Char) (h : x.reverse.head? ≠ y.reverse.head?) : x ≠ y :=
  fun he => h (congrArg (fun l => List.head? l.reverse) he)

/-- Cons cells with different heads are different lists. -/
theorem ne_cons_of {c d : Char} (x y : List Char) (h : ¬ c = d) : c :: x ≠ d :: y := by
  intro he
  injection he with h1 h2
  exact h h1

/-- Lists of different lengths are different. -/
theorem ne_len (x y : List Char) (h : ¬ x.length = y.length) : x ≠ y :=
  fun he => h (congrArg List.length he)

set_option maxRecDepth 10000 in
/-- The English stub is the intercalation of its lines by a newline. -/
theorem stubDataEn (kw desc wc : String) :
    (fallbackStubEn kw desc wc).data =
      List.intercalate [ '\n'] (stubLinesListEn kw desc wc) := by
  simp [fallbackStubEn, stubLinesListEn, nlStr, List.intercalate,
    String.data_append]

set_option maxRecDepth 10000 in
/-- The Japanese stub is the intercalation of its lines by a newline. -/
theorem stubDataJa (kw desc wc : String) :
    (fallbackStubJa kw desc wc).data =
      List.intercalate [ '\n'] (stubLinesListJa kw desc wc) := by
  simp [fallbackStubJa, stubLinesListJa, nlStr, List.intercalate,
    String.data_append]

set_option maxRecDepth 10000 in
/-- The Chinese stub is the intercalation of its lines by a newline. -/
theorem stubDataZh (kw desc wc : String) :
    (fallbackStubZh kw desc wc).data =
      List.intercalate [ '\n'] (stubLinesListZh kw desc wc) := by
  simp [fallbackStubZh, stubLinesListZh, nlStr, List.intercalate,
    String.data_append]

/-- Splitting the English stub at newlines yields its line list. -/
theorem stubLinesEn (kw desc wc : String)
    (hkw : nlFree kw.data = true) (hdesc : nlFree desc.data = true)
    (hwc : nlFree wc.data = true) :
    splitNlData (fallbackStubEn kw desc wc).data = stubLinesListEn kw desc wc := by
  rw [stubDataEn, splitNl_intercalate]
  · simp [stubLinesListEn]
  · intro l hl
    simp only [stubLinesListEn, List.mem_cons, List.not_mem_nil, or_false] at hl
    rcases hl with h | h | h | h | h | h | h | h | h | h | h | h | h | h | h | h | h | h | h <;>
      subst h <;> simp_all [nlFree, List.all_append]

/-- Splitting the Japanese stub at newlines yields its line list. -/
theorem stubLinesJa (kw desc wc : String)
    (hkw : nlFree kw.data = true) (hdesc : nlFree desc.data = true)
    (hwc : nlFree wc.data = true) :
    splitNlData (fallbackStubJa kw desc wc).data = stubLinesListJa kw desc wc := by
  rw [stubDataJa, splitNl_intercalate]
  · simp [stubLinesListJa]
  · intro l hl
    simp only [stubLinesListJa, List.mem_cons, List.not_mem_nil, or_false] at hl
    rcases hl with h | h | h | h | h | h | h | h | h | h | h | h | h | h | h | h | h | h | h <;>
      subst h <;> simp_all [nlFree, List.all_append]

/-- Splitting the Chinese stub at newlines yields its line list. -/
theorem stubLinesZh (kw desc wc : String)
    (hkw : nlFree kw.data = true) (hdesc : nlFree desc.data = true)
    (hwc : nlFree wc.data = true) :
    splitNlData (fallbackStubZh kw desc wc).data = stubLinesListZh kw desc wc := by
  rw [stubDataZh, splitNl_intercalate]
  · simp [stubLinesListZh]
  · intro l hl
    simp only [stubLinesListZh, List.mem_cons, List.not_mem_nil, or_false] at hl
    rcases hl with h | h | h | h | h | h | h | h | h | h | h | h | h | h | h | h | h | h | h <;>
      subst h <;> simp_all [nlFree, List.all_append]

/-- Mapping the stub's English lines through the canonical-header matcher
finds exactly the four sections, numbered 1 to 4 in order. -/
theorem stubSectionsEn (kw desc wc : String)
    (hwcd : ('—' : Char) ∉ wc.data) :
    (stubLinesListEn kw desc wc).filterMap (canonSectionIdx "English" wc) =
      [1, 2, 3, 4] := by
  have n11 : ("1. ").data ++ kw.data ++ (": Key Points and Practice").data ≠
      ("1. Title Candidates").data := by
    apply ne_len
    simp
  have n12 : ("1. ").data ++ kw.data ++ (": Key Points and Practice").data ≠
      ("2. Outline").data := ne_cons_of _ _ (by decide)
  have n13 : ("1. ").data ++ kw.data ++ (": Key Points and Practice").data ≠
      ("3. Body (").data ++ wc.data ++ (")").data := ne_cons_of _ _ (by decide)
  have n14 : ("1. ").data ++ kw.data ++ (": Key Points and Practice").data ≠
      ("4. Conclusion").data := ne_cons_of _ _ (by decide)
  have n21 : ("2. ").data ++ kw.data ++ (" Strategy Guide").data ≠
      ("1. Title Candidates").data := ne_cons_of _ _ (by decide)
  have n22 : ("2. ").data ++ kw.data ++ (" Strategy Guide").data ≠
      ("2. Outline").data := by
    apply ne_len
    simp
  have n23 : ("2. ").data ++ kw.data ++ (" Strategy Guide").data ≠
      ("3. Body (").data ++ wc.data ++ (")").data := ne_cons_of _ _ (by decide)
  have n24 : ("2. ").data ++ kw.data ++ (" Strategy Guide").data ≠
      ("4. Conclusion").data := ne_cons_of _ _ (by decide)
  have n31 : ("3. ").data ++ kw.data ++ (" Case Notes").data ≠
      ("1. Title Candidates").data := ne_cons_of _ _ (by decide)
  have n32 : ("3. ").data ++ kw.data ++ (" Case Notes").data ≠
      ("2. Outline").data := ne_cons_of _ _ (by decide)
  have n33 : ("3. ").data ++ kw.data ++ (" Case Notes").data ≠
      ("3. Body (").data ++ wc.data ++ (")").data := by
    apply ne_of_rev
    simp [List.reverse_append]
  have n34 : ("3. ").data ++ kw.data ++ (" Case Notes").data ≠
      ("4. Conclusion").data := ne_cons_of _ _ (by decide)
  have hm : ('—' : Char) ∈ kw.data ++ (" — ").data ++ desc.data := by
    simp
  have n41 : kw.data ++ (" — ").data ++ desc.data ≠ ("1. Title Candidates").data :=
    ne_of_memb _ _ '—' hm (by decide)
  have n42 : kw.data ++ (" — ").data ++ desc.data ≠ ("2. Outline").data :=
    ne_of_memb _ _ '—' hm (by decide)
  have n43 : kw.data ++ (" — ").data ++ desc.data ≠
      ("3. Body (").data ++ wc.data ++ (")").data := by
    apply ne_of_memb _ _ '—' hm
    simp [hwcd]
  have n44 : kw.data ++ (" — ").data ++ desc.data ≠ ("4. Conclusion").data :=
    ne_of_memb _ _ '—' hm (by decide)
  have n01 : ("3. Body (").data ++ wc.data ++ (")").data ≠
      ("1. Title Candidates").data := ne_cons_of _ _ (by decide)
  have n02 : ("3. Body (").data ++ wc.data ++ (")").data ≠
      ("2. Outline").data := ne_cons_of _ _ (by decide)
  have e1 : canonSectionIdx "English" wc
      (("Notice: This is locally generated fallback content due to remote generation failure or rate limit. For reference only.").data) = none := rfl
  have e2 : canonSectionIdx "English" wc ([] : List Char) = none := rfl
  have e3 : canonSectionIdx "English" wc (("1. Title Candidates").data) = some 1 := rfl
  have e4 : canonSectionIdx "English" wc
      (("1. ").data ++ kw.data ++ (": Key Points and Practice").data) = none := by
    unfold canonSectionIdx
    rw [if_pos rfl, if_neg n11, if_neg n12, if_neg n13, if_neg n14]
  have e5 : canonSectionIdx "English" wc
      (("2. ").data ++ kw.data ++ (" Strategy Guide").data) = none := by
    unfold canonSectionIdx
    rw [if_pos rfl, if_neg n21, if_neg n22, if_neg n23, if_neg n24]
  have e6 : canonSectionIdx "English" wc
      (("3. ").data ++ kw.data ++ (" Case Notes").data) = none := by
    unfold canonSectionIdx
    rw [if_pos rfl, if_neg n31, if_neg n32, if_neg n33, if_neg n34]
  have e7 : canonSectionIdx "English" wc (("2. Outline").data) = some 2 := rfl
  have e8 : canonSectionIdx "English" wc (("1. Background and Goals").data) = none := rfl
  have e9 : canonSectionIdx "English" wc (("2. Key Points").data) = none := rfl
  have e10 : canonSectionIdx "English" wc (("3. Cases and Practice").data) = none := rfl
  have e11 : canonSectionIdx "English" wc (("4. Risks and Measures").data) = none := rfl
  have e12 : canonSectionIdx "English" wc (("5. Summary").data) = none := rfl
  have e13 : canonSectionIdx "English" wc
      (("3. Body (").data ++ wc.data ++ (")").data) = some 3 := by
    unfold canonSectionIdx
    rw [if_pos rfl, if_neg n01, if_neg n02, if_pos rfl]
  have e14 : canonSectionIdx "English" wc
      (kw.data ++ (" — ").data ++ desc.data) = none := by
    unfold canonSectionIdx
    rw [if_pos rfl, if_neg n41, if_neg n42, if_neg n43, if_neg n44]
  have e15 : canonSectionIdx "English" wc (("4. Conclusion").data) = some 4 := rfl
  unfold stubLinesListEn
  rw [List.filterMap_cons_none e1, List.filterMap_cons_none e2,
    List.filterMap_cons_some e3, List.filterMap_cons_none e4,
    List.filterMap_cons_none e5, List.filterMap_cons_none e6,
    List.filterMap_cons_none e2, List.filterMap_cons_some e7,
    List.filterMap_cons_none e8, List.filterMap_cons_none e9,
    List.filterMap_cons_none e10, List.filterMap_cons_none e11,
    List.filterMap_cons_none e12, List.filterMap_cons_none e2,
    List.filterMap_cons_some e13, List.filterMap_cons_none e14,
    List.filterMap_cons_none e2, List.filterMap_cons_some e15,
    List.filterMap_cons_none e2, List.filterMap_nil]

/-- Mapping the stub's Japanese lines through the canonical-header matcher
finds exactly the four sections, numbered 1 to 4 in order. -/
theorem stubSectionsJa (kw desc wc : String)
    (hwcd : ('—' : Char) ∉ wc.data) :
    (stubLinesListJa kw desc wc).filterMap (canonSectionIdx "日本語" wc) =
      [1, 2, 3, 4] := by
  have n11 : ("1. ").data ++ kw.data ++ ("の要点と実践").data ≠
      ("1. タイトル候補").data := by
    apply ne_of_rev
    simp [List.reverse_append]
  have n12 : ("1. ").data ++ kw.data ++ ("の要点と実践").data ≠
      ("2. アウトライン").data := ne_cons_of _ _ (by decide)
  have n13 : ("1. ").data ++ kw.data ++ ("の要点と実践").data ≠
      ("3. 本文（").data ++ wc.data ++ ("）").data := ne_cons_of _ _ (by decide)
  have n14 : ("1. ").data ++ kw.data ++ ("の要点と実践").data ≠
      ("4. 結論").data := ne_cons_of _ _ (by decide)
  have n21 : ("2. ").data ++ kw.data ++ ("戦略ガイド").data ≠
      ("1. タイトル候補").data := ne_cons_of _ _ (by decide)
  have n22 : ("2. ").data ++ kw.data ++ ("戦略ガイド").data ≠
      ("2. アウトライン").data := by
    apply ne_of_rev
    simp [List.reverse_append]
  have n23 : ("2. ").data ++ kw.data ++ ("戦略ガイド").data ≠
      ("3. 本文（").data ++ wc.data ++ ("）").data := ne_cons_of _ _ (by decide)
  have n24 : ("2. ").data ++ kw.data ++ ("戦略ガイド").data ≠
      ("4. 結論").data := ne_cons_of _ _ (by decide)
  have n31 : ("3. ").data ++ kw.data ++ ("ケースメモ").data ≠
      ("1. タイトル候補").data := ne_cons_of _ _ (by decide)
  have n32 : ("3. ").data ++ kw.data ++ ("ケースメモ").data ≠
      ("2. アウトライン").data := ne_cons_of _ _ (by decide)
  have n33 : ("3. ").data ++ kw.data ++ ("ケースメモ").data ≠
      ("3. 本文（").data ++ wc.data ++ ("）").data := by
    apply ne_of_rev
    simp [List.reverse_append]
  have n34 : ("3. ").data ++ kw.data ++ ("ケースメモ").data ≠
      ("4. 結論").data := ne_cons_of _ _ (by decide)
  have hm : ('—' : Char) ∈ kw.data ++ (" — ").data ++ desc.data := by
    simp
  have n41 : kw.data ++ (" — ").data ++ desc.data ≠ ("1. タイトル候補").data :=
    ne_of_memb _ _ '—' hm (by decide)
  have n42 : kw.data ++ (" — ").data ++ desc.data ≠ ("2. アウトライン").data :=
    ne_of_memb _ _ '—' hm (by decide)
  have n43 : kw.data ++ (" — ").data ++ desc.data ≠
      ("3. 本文（").data ++ wc.data ++ ("）").data := by
    apply ne_of_memb _ _ '—' hm
    simp [hwcd]
  have n44 : kw.data ++ (" — ").data ++ desc.data ≠ ("4. 結論").data :=
    ne_of_memb _ _ '—' hm (by decide)
  have n01 : ("3. 本文（").data ++ wc.data ++ ("）").data ≠
      ("1. タイトル候補").data := ne_cons_of _ _ (by decide)
  have n02 : ("3. 本文（").data ++ wc.data ++ ("）").data ≠
      ("2. アウトライン").data := ne_cons_of _ _ (by decide)
  have e1 : canonSectionIdx "日本語" wc
      (("注意：これは生成失敗・レート制限時のローカルフォールバックです。参考用。").data) = none := rfl
  have e2 : canonSectionIdx "日本語" wc ([] : List Char) = none := rfl
  have e3 : canonSectionIdx "日本語" wc (("1. タイトル候補").data) = some 1 := rfl
  have e4 : canonSectionIdx "日本語" wc
      (("1. ").data ++ kw.data ++ ("の要点と実践").data) = none := by
    unfold canonSectionIdx
    rw [if_neg (by decide), if_pos rfl, if_neg n11, if_neg n12, if_neg n13, if_neg n14]
  have e5 : canonSectionIdx "日本語" wc
      (("2. ").data ++ kw.data ++ ("戦略ガイド").data) = none := by
    unfold canonSectionIdx
    rw [if_neg (by decide), if_pos rfl, if_neg n21, if_neg n22, if_neg n23, if_neg n24]
  have e6 : canonSectionIdx "日本語" wc
      (("3. ").data ++ kw.data ++ ("ケースメモ").data) = none := by
    unfold canonSectionIdx
    rw [if_neg (by decide), if_pos rfl, if_neg n31, if_neg n32, if_neg n33, if_neg n34]
  have e7 : canonSectionIdx "日本語" wc (("2. アウトライン").data) = some 2 := rfl
  have e8 : canonSectionIdx "日本語" wc (("1. 背景と目的").data) = none := rfl
  have e9 : canonSectionIdx "日本語" wc (("2. 重要ポイント").data) = none := rfl
  have e10 : canonSectionIdx "日本語" wc (("3. 事例と実践").data) = none := rfl
  have e11 : canonSectionIdx "日本語" wc (("4. リスクと対策").data) = none := rfl
  have e12 : canonSectionIdx "日本語" wc (("5. まとめ").data) = none := rfl
  have e13 : canonSectionIdx "日本語" wc
      (("3. 本文（").data ++ wc.data ++ ("）").data) = some 3 := by
    unfold canonSectionIdx
    rw [if_neg (by decide), if_pos rfl, if_neg n01, if_neg n02, if_pos rfl]
  have e14 : canonSectionIdx "日本語" wc
      (kw.data ++ (" — ").data ++ desc.data) = none := by
    unfold canonSectionIdx
    rw [if_neg (by decide), if_pos rfl, if_neg n41, if_neg n42, if_neg n43, if_neg n44]
  have e15 : canonSectionIdx "日本語" wc (("4. 結論").data) = some 4 := rfl
  unfold stubLinesListJa
  rw [List.filterMap_cons_none e1, List.filterMap_cons_none e2,
    List.filterMap_cons_some e3, List.filterMap_cons_none e4,
    List.filterMap_cons_none e5, List.filterMap_cons_none e6,
    List.filterMap_cons_none e2, List.filterMap_cons_some e7,
    List.filterMap_cons_none e8, List.filterMap_cons_none e9,
    List.filterMap_cons_none e10, List.filterMap_cons_none e11,
    List.filterMap_cons_none e12, List.filterMap_cons_none e2,
    List.filterMap_cons_some e13, List.filterMap_cons_none e14,
    List.filterMap_cons_none e2, List.filterMap_cons_some e15,
    List.filterMap_cons_none e2, List.filterMap_nil]

/-- Mapping the stub's Chinese lines through the canonical-header matcher
finds exactly the four sections, numbered 1 to 4 in order. -/
theorem stubSectionsZh (kw desc wc : String)
    (hwcd : ('—' : Char) ∉ wc.data) :
    (stubLinesListZh kw desc wc).filterMap (canonSectionIdx "中文" wc) =
      [1, 2, 3, 4] := by
  have n11 : ("1. ").data ++ kw.data ++ ("：核心要点与实践").data ≠
      ("1. 标题候选").data := by
    apply ne_of_rev
    simp [List.reverse_append]
  have n12 : ("1. ").data ++ kw.data ++ ("：核心要点与实践").data ≠
      ("2. 内容大纲").data := ne_cons_of _ _ (by decide)
  have n13 : ("1. ").data ++ kw.data ++ ("：核心要点与实践").data ≠
      ("3. 正文（").data ++ wc.data ++ ("）").data := ne_cons_of _ _ (by decide)
  have n14 : ("1. ").data ++ kw.data ++ ("：核心要点与实践").data ≠
      ("4. 结尾总结").data := ne_cons_of _ _ (by decide)
  have n21 : ("2. ").data ++ kw.data ++ ("应用攻略").data ≠
      ("1. 标题候选").data := ne_cons_of _ _ (by decide)
  have n22 : ("2. ").data ++ kw.data ++ ("应用攻略").data ≠
      ("2. 内容大纲").data := by
    apply ne_of_rev
    simp [List.reverse_append]
  have n23 : ("2. ").data ++ kw.data ++ ("应用攻略").data ≠
      ("3. 正文（").data ++ wc.data ++ ("）").data := ne_cons_of _ _ (by decide)
  have n24 : ("2. ").data ++ kw.data ++ ("应用攻略").data ≠
      ("4. 结尾总结").data := ne_cons_of _ _ (by decide)
  have n31 : ("3. ").data ++ kw.data ++ ("策略笔记").data ≠
      ("1. 标题候选").data := ne_cons_of _ _ (by decide)
  have n32 : ("3. ").data ++ kw.data ++ ("策略笔记").data ≠
      ("2. 内容大纲").data := ne_cons_of _ _ (by decide)
  have n33 : ("3. ").data ++ kw.data ++ ("策略笔记").data ≠
      ("3. 正文（").data ++ wc.data ++ ("）").data := by
    apply ne_of_rev
    simp [List.reverse_append]
  have n34 : ("3. ").data ++ kw.data ++ ("策略笔记").data ≠
      ("4. 结尾总结").data := ne_cons_of _ _ (by decide)
  have hm : ('—' : Char) ∈ kw.data ++ (" — ").data ++ desc.data := by
    simp
  have n41 : kw.data ++ (" — ").data ++ desc.data ≠ ("1. 标题候选").data :=
    ne_of_memb _ _ '—' hm (by decide)
  have n42 : kw.data ++ (" — ").data ++ desc.data ≠ ("2. 内容大纲").data :=
    ne_of_memb _ _ '—' hm (by decide)
  have n43 : kw.data ++ (" — ").data ++ desc.data ≠
      ("3. 正文（").data ++ wc.data ++ ("）").data := by
    apply ne_of_memb _ _ '—' hm
    simp [hwcd]
  have n44 : kw.data ++ (" — ").data ++ desc.data ≠ ("4. 结尾总结").data :=
    ne_of_memb _ _ '—' hm (by decide)
  have n01 : ("3. 正文（").data ++ wc.data ++ ("）").data ≠
      ("1. 标题候选").data := ne_cons_of _ _ (by decide)
  have n02 : ("3. 正文（").data ++ wc.data ++ ("）").data ≠
      ("2. 内容大纲").data := ne_cons_of _ _ (by decide)
  have e1 : canonSectionIdx "中文" wc
      (("提示：当前内容为生成失败后的兜底内容（本地生成），仅供参考。").data) = none := rfl
  have e2 : canonSectionIdx "中文" wc ([] : List Char) = none := rfl
  have e3 : canonSectionIdx "中文" wc (("1. 标题候选").data) = some 1 := rfl
  have e4 : canonSectionIdx "中文" wc
      (("1. ").data ++ kw.data ++ ("：核心要点与实践").data) = none := by
    unfold canonSectionIdx
    rw [if_neg (by decide), if_neg (by decide), if_neg n11, if_neg n12, if_neg n13, if_neg n14]
  have e5 : canonSectionIdx "中文" wc
      (("2. ").data ++ kw.data ++ ("应用攻略").data) = none := by
    unfold canonSectionIdx
    rw [if_neg (by decide), if_neg (by decide), if_neg n21, if_neg n22, if_neg n23, if_neg n24]
  have e6 : canonSectionIdx "中文" wc
      (("3. ").data ++ kw.data ++ ("策略笔记").data) = none := by
    unfold canonSectionIdx
    rw [if_neg (by decide), if_neg (by decide), if_neg n31, if_neg n32, if_neg n33, if_neg n34]
  have e7 : canonSectionIdx "中文" wc (("2. 内容大纲").data) = some 2 := rfl
  have e8 : canonSectionIdx "中文" wc (("1. 背景与目标").data) = none := rfl
  have e9 : canonSectionIdx "中文" wc (("2. 关键观点").data) = none := rfl
  have e10 : canonSectionIdx "中文" wc (("3. 案例与实践").data) = none := rfl
  have e11 : canonSectionIdx "中文" wc (("4. 风险与对策").data) = none := rfl
  have e12 : canonSectionIdx "中文" wc (("5. 总结").data) = none := rfl
  have e13 : canonSectionIdx "中文" wc
      (("3. 正文（").data ++ wc.data ++ ("）").data) = some 3 := by
    unfold canonSectionIdx
    rw [if_neg (by decide), if_neg (by decide), if_neg n01, if_neg n02, if_pos rfl]
  have e14 : canonSectionIdx "中文" wc
      (kw.data ++ (" — ").data ++ desc.data) = none := by
    unfold canonSectionIdx
    rw [if_neg (by decide), if_neg (by decide), if_neg n41, if_neg n42, if_neg n43, if_neg n44]
  have e15 : canonSectionIdx "中文" wc (("4. 结尾总结").data) = some 4 := rfl
  unfold stubLinesListZh
  rw [List.filterMap_cons_none e1, List.filterMap_cons_none e2,
    List.filterMap_cons_some e3, List.filterMap_cons_none e4,
    List.filterMap_cons_none e5, List.filterMap_cons_none e6,
    List.filterMap_cons_none e2, List.filterMap_cons_some e7,
    List.filterMap_cons_none e8, List.filterMap_cons_none e9,
    List.filterMap_cons_none e10, List.filterMap_cons_none e11,
    List.filterMap_cons_none e12, List.filterMap_cons_none e2,
    List.filterMap_cons_some e13, List.filterMap_cons_none e14,
    List.filterMap_cons_none e2, List.filterMap_cons_some e15,
    List.filterMap_cons_none e2, List.filterMap_nil]

/-! ## Claim theorems -/

/-- C5.  Chunk-split invariance of frame reassembly: feeding the SSE byte
stream split at arbitrary byte boundaries (including boundaries inside a
frame's JSON payload and inside a multi-byte UTF-8 sequence) accumulates
exactly the same document state as delivering the whole stream in a single
chunk. -/
theorem c5_chunk_split_invariance (chunks : List (List Nat)) :
    ingestBytes chunks = ingestBytes [chunks.flatten] := by
  cases chunks with
  | nil => rfl
  | cons a rest =>
    simp only [ingestBytes, List.foldl_cons, List.foldl_nil, List.flatten_cons,
      foldl_byteChunkStep]

/-- C6.  Fallback exclusivity: a text carrying one of the three fallback
markers is never reported incomplete, the auto-complete continuation never
fires on it, and the manual continue handler refuses to issue a request. -/
theorem c6_fallback_exclusivity (text modelId language lengthKey : String) (ac : Bool)
    (h : hasFallbackMarker text = true) :
    isLikelyIncomplete language lengthKey text = false ∧
    autoCompleteFires ac language lengthKey text = false ∧
    handleContinueIssuesRequest text modelId = false := by
  have h' : (containsSub zhMarker.data text.data || containsSub enMarker.data text.data ||
      containsSub jaMarker.data text.data) = true := h
  have h1 : isLikelyIncomplete language lengthKey text = false := by
    unfold isLikelyIncomplete
    simp only [h']
    rfl
  refine ⟨h1, ?_, ?_⟩
  · unfold autoCompleteFires
    rw [h1]
    simp
  · unfold handleContinueIssuesRequest
    split_ifs with g1 g2 g3 <;> simp_all [hasFallbackMarker]

/-- Closed instance of C6 at the Chinese marker text itself. -/
theorem c6_fallback_exclusivity_witness :
    isLikelyIncomplete "中文" "short" zhMarker = false ∧
    autoCompleteFires true "中文" "short" zhMarker = false ∧
    handleContinueIssuesRequest zhMarker "deepseek-chat" = false :=
  c6_fallback_exclusivity zhMarker "deepseek-chat" "中文" "short" true (by decide)

/-- C9.  The `[DONE]` sentinel and frames whose payload fails JSON parsing
leave the accumulated state unchanged and do not stop the processing of the
following frames; a stream consisting solely of one `data: [DONE]` frame
ends with the empty document. -/
theorem c9_sentinel_parse_defects :
    (∀ st : IngestSt, processPayload st (("[DONE]").data) = st) ∧
    (∀ (st : IngestSt) (payload : List Char), jsonParse payload = none →
        processPayload st payload = st) ∧
    (∀ (st : IngestSt) (block : List Char) (blocks : List (List Char)),
        processBlock st block = st →
        (block :: blocks).foldl processBlock st = blocks.foldl processBlock st) ∧
    ingestChunksChar [("data: [DONE]\n\n").data] =
      { fullText := [], fallbackStreamHit := false } := by
  refine ⟨?_, ?_, ?_, ?_⟩
  · intro st
    simp [processPayload]
  · intro st payload h
    unfold processPayload parseApply
    split_ifs with hp
    · rfl
    · rw [h]
  · intro st block blocks h
    simp [List.foldl_cons, h]
  · decide

/-- Closed instance of C9: a malformed payload is swallowed and the
DONE-only stream yields the empty document. -/
theorem c9_sentinel_parse_defects_witness :
    processPayload { fullText := [], fallbackStreamHit := false } (("nonsense").data) =
      { fullText := [], fallbackStreamHit := false } ∧
    ingestChunksChar [("data: [DONE]\n\n").data] =
      { fullText := [], fallbackStreamHit := false } :=
  ⟨c9_sentinel_parse_defects.2.1 _ _ rfl, c9_sentinel_parse_defects.2.2.2⟩

/-- C3 (amended).  The clamper is the identity when `allowOverflow` is set
(the `autoComplete` path), and also whenever the text already fits the
tier's maximum.  (The original claim's bound for `allowOverflow = false` is
refuted by `c3_clamp_exceeds_max_cex`: the `budget <= 0` branch keeps the
whole suffix.) -/
theorem c3_clamp_modes (text lengthKey language : String) :
    clampOutputToLength text lengthKey language true = text ∧
    (getCharCount text ≤ tierMax lengthKey →
      clampOutputToLength text lengthKey language false = text) := by
  constructor
  · rfl
  · intro h
    unfold clampOutputToLength
    simp [h]

/-- Closed instance of C3's amended statement. -/
theorem c3_clamp_modes_witness :
    clampOutputToLength ("abc") "short" "English" true = ("abc") ∧
    clampOutputToLength ("abc") "short" "English" false = ("abc") :=
  ⟨(c3_clamp_modes ("abc") "short" "English").1,
   (c3_clamp_modes ("abc") "short" "English").2 (by decide)⟩

set_option maxRecDepth 10000 in
/-- C3 counterexample: with `allowOverflow = false` and tier `short`
(maximum 500), the clamped output still counts 618 characters — the claimed
bound `charCount(finalText) ≤ max` is violated. -/
theorem c3_clamp_exceeds_max_cex :
    tierMax "short" < getCharCount (clampOutputToLength exC3 "short" "English" false) := by
  decide

/-- C4 (amended).  A frame whose `meta.source` is `local_fallback_stream`
raises the fallback flag and appends nothing itself; the flag is monotone
over all further frame, chunk and tail processing; and a raised flag forces
the non-streaming retry.  (The original claim's "no later delta is
appended" is refuted by `c4_delta_appended_cex`.) -/
theorem c4_fallback_flag :
    (∀ (st : IngestSt) (payload : List Char) (v : JVal),
        jsonParse payload = some v → metaIsFallbackStream v = true →
        parseApply st payload = { st with fallbackStreamHit := true }) ∧
    (∀ (st : IngestSt) (blocks : List (List Char)), st.fallbackStreamHit = true →
        (blocks.foldl processBlock st).fallbackStreamHit = true) ∧
    (∀ (chunks : List (List Char)) (s : StreamSt), s.st.fallbackStreamHit = true →
        (chunks.foldl chunkStep s).st.fallbackStreamHit = true) ∧
    (∀ (st : IngestSt) (buffer : List Char), st.fallbackStreamHit = true →
        (finishTail st buffer).fallbackStreamHit = true) ∧
    (∀ st : IngestSt, st.fallbackStreamHit = true → retriesNonStream st = true) := by
  have hparse : ∀ (st : IngestSt) (payload : List Char), st.fallbackStreamHit = true →
      (parseApply st payload).fallbackStreamHit = true := by
    intro st payload h
    unfold parseApply
    cases jsonParse payload with
    | none => exact h
    | some v =>
      simp only
      split_ifs with h2
      · rfl
      · cases contentStr v with
        | none => exact h
        | some c =>
          simp only
          split_ifs with h3 <;> exact h
  have hpay : ∀ (st : IngestSt) (payload : List Char), st.fallbackStreamHit = true →
      (processPayload st payload).fallbackStreamHit = true := by
    intro st payload h
    unfold processPayload
    split_ifs with h1
    · exact h
    · exact hparse st _ h
  have hblock : ∀ (st : IngestSt) (block : List Char), st.fallbackStreamHit = true →
      (processBlock st block).fallbackStreamHit = true := by
    intro st block h
    unfold processBlock
    split_ifs with h1
    · exact h
    · exact hpay st _ h
  have hblocks : ∀ (blocks : List (List Char)) (st : IngestSt), st.fallbackStreamHit = true →
      (blocks.foldl processBlock st).fallbackStreamHit = true := by
    intro blocks
    induction blocks with
    | nil => intro st h; exact h
    | cons b rest ih =>
      intro st h
      exact ih _ (hblock st b h)
  have hpa : ∀ (st : IngestSt) (payload : List Char) (v : JVal),
      jsonParse payload = some v → metaIsFallbackStream v = true →
      parseApply st payload = { st with fallbackStreamHit := true } := by
    intro st payload v hv hm
    unfold parseApply
    rw [hv]
    simp only [hm, if_pos]
  refine ⟨hpa, fun st blocks h => hblocks blocks st h, ?_, ?_, ?_⟩
  · intro chunks
    induction chunks with
    | nil => intro s h; exact h
    | cons c rest ih =>
      intro s h
      refine ih _ ?_
      unfold chunkStep
      exact hblocks _ _ h
  · intro st buffer h
    unfold finishTail
    split_ifs with h1
    · dsimp only
      split_ifs with h2
      · exact hparse st _ h
      · exact h
    · exact h
  · intro st h
    unfold retriesNonStream
    rw [h]
    simp

/-- Closed instance of C4's amended statement: the fallback frame of `sC4`
raises the flag without appending, and a raised flag forces the retry. -/
theorem c4_fallback_flag_witness :
    parseApply { fullText := [], fallbackStreamHit := false }
        (("\x7b\"meta\":\x7b\"source\":\"local_fallback_stream\"\x7d\x7d").data) =
      { fullText := [], fallbackStreamHit := true } ∧
    retriesNonStream { fullText := [ 'X'], fallbackStreamHit := true } = true :=
  ⟨c4_fallback_flag.1 _ _ _ rfl rfl, c4_fallback_flag.2.2.2.2 _ rfl⟩

/-- C4 counterexample: in `sC4` the content delta of the frame after the
fallback frame IS appended to the document (`fullText = "X"`), refuting
"no content delta from any subsequent frame is appended"; the flag is
raised nonetheless. -/
theorem c4_delta_appended_cex :
    ingestChunksChar [sC4.data] = { fullText := [ 'X'], fallbackStreamHit := true } ∧
    ({ fullText := [ 'X'], fallbackStreamHit := true } : IngestSt).fullText ≠ [] := by
  constructor
  · decide
  · decide

/-- C1 (amended).  On an already-canonical document the normalization pass
is the identity, hence re-running it there is safe.  (General idempotence
is refuted by `c1_not_idempotent_cex`.) -/
theorem c1_normalize_canonical_fixed :
    normalizePass dCanon "关键词" "中文" = dCanon ∧
    normalizePass (normalizePass dCanon "关键词" "中文") "关键词" "中文" =
      normalizePass dCanon "关键词" "中文" := by
  constructor
  · decide
  · decide

/-- C1 counterexample: `normalize(normalize(d)) != normalize(d)` for
`exC1` — the pass is not idempotent on all documents. -/
theorem c1_not_idempotent_cex :
    normalizePass (normalizePass exC1 "kw" "English") "kw" "English" ≠
      normalizePass exC1 "kw" "English" := by
  decide

/-- Adjacent slices concatenate. -/
theorem sliceL_append (l : List (List Char)) (a b c : Nat) (hab : a ≤ b) (hbc : b ≤ c) :
    sliceL l a b ++ sliceL l b c = sliceL l a c := by
  unfold sliceL
  have h1 : l.drop b = (l.drop a).drop (b - a) := by
    rw [List.drop_drop]
    congr 1
    omega
  have h2 : c - a = (b - a) + (c - b) := by omega
  rw [h1, h2, List.take_add]

/-- An element of a slice, read back in the whole list. -/
theorem sliceL_getD (l : List (List Char)) (a e k : Nat) (hk : a + k < e) :
    (sliceL l a e).getD k [] = l.getD (a + k) [] := by
  unfold sliceL
  rw [List.getD_eq_getElem?_getD, List.getD_eq_getElem?_getD,
    List.getElem?_take_of_lt (by omega), List.getElem?_drop]

set_option maxHeartbeats 1000000 in
/-- C2 (amended).  When the four canonical headers are located in
increasing physical order, the renumbering pass emits exactly the span
from section 1's header to the next top header after section 4: one
contiguous block whose relative positions `0, i2-i1, i3-i1, i4-i1` carry
the canonical headers 1, 2, 3 and 4 in order; when fewer than four are
found, the line list is re-emitted unchanged (headers canonicalised only).
(For interleaved inputs — located out of order — the original claim is
refuted by `c2_reorder_cex`.) -/
theorem c2_top_sections_order (text : String) :
    (∀ i1 i2 i3 i4,
      ((splitNlData text.data).map normLine).findIdx? (isTopN '1') = some i1 →
      ((splitNlData text.data).map normLine).findIdx? (isTopN '2') = some i2 →
      ((splitNlData text.data).map normLine).findIdx? (isTopN '3') = some i3 →
      ((splitNlData text.data).map normLine).findIdx? (isTopN '4') = some i4 →
      i1 < i2 → i2 < i3 → i3 < i4 →
      normalizeTopSections text =
        String.mk (joinNl (sliceL ((splitNlData text.data).map normLine) i1
          (topEndAbs ((splitNlData text.data).map normLine) i4))) ∧
      isTopN '1' ((sliceL ((splitNlData text.data).map normLine) i1
          (topEndAbs ((splitNlData text.data).map normLine) i4)).getD 0 []) = true ∧
      isTopN '2' ((sliceL ((splitNlData text.data).map normLine) i1
          (topEndAbs ((splitNlData text.data).map normLine) i4)).getD (i2 - i1) []) = true ∧
      isTopN '3' ((sliceL ((splitNlData text.data).map normLine) i1
          (topEndAbs ((splitNlData text.data).map normLine) i4)).getD (i3 - i1) []) = true ∧
      isTopN '4' ((sliceL ((splitNlData text.data).map normLine) i1
          (topEndAbs ((splitNlData text.data).map normLine) i4)).getD (i4 - i1) []) = true) ∧
    (((splitNlData text.data).map normLine).findIdx? (isTopN '1') = none ∨
     ((splitNlData text.data).map normLine).findIdx? (isTopN '2') = none ∨
     ((splitNlData text.data).map normLine).findIdx? (isTopN '3') = none ∨
     ((splitNlData text.data).map normLine).findIdx? (isTopN '4') = none →
      normalizeTopSections text =
        String.mk (joinNl ((splitNlData text.data).map normLine))) := by
  constructor
  · intro i1 i2 i3 i4 h1 h2 h3 h4 h12 h23 h34
    have hb1 := List.findIdx?_eq_some_iff_getElem.1 h1
    have hb2 := List.findIdx?_eq_some_iff_getElem.1 h2
    have hb3 := List.findIdx?_eq_some_iff_getElem.1 h3
    have hb4 := List.findIdx?_eq_some_iff_getElem.1 h4
    obtain ⟨hl1, hp1, _⟩ := hb1
    obtain ⟨hl2, hp2, _⟩ := hb2
    obtain ⟨hl3, hp3, _⟩ := hb3
    obtain ⟨hl4, hp4, _⟩ := hb4
    have he : i4 < topEndAbs ((splitNlData text.data).map normLine) i4 := by
      unfold topEndAbs
      cases ((splitNlData text.data).map normLine).drop (i4 + 1) |>.findIdx? isTopHeader with
      | none => exact hl4
      | some r =>
        show i4 < i4 + 1 + r
        omega
    have heq : normalizeTopSections text =
        String.mk (joinNl (sliceL ((splitNlData text.data).map normLine) i1
          (topEndAbs ((splitNlData text.data).map normLine) i4))) := by
      simp only [normalizeTopSections]
      rw [h1, h2, h3, h4]
      dsimp only
      rw [show (match ((splitNlData text.data).map normLine).drop (i4 + 1) |>.findIdx? isTopHeader with
            | some r => i4 + 1 + r
            | none => ((splitNlData text.data).map normLine).length) =
          topEndAbs ((splitNlData text.data).map normLine) i4 from rfl]
      rw [sliceL_append _ i1 i2 i3 (by omega) (by omega),
        sliceL_append _ i1 i3 i4 (by omega) (by omega),
        sliceL_append _ i1 i4 _ (by omega) (by omega)]
    refine ⟨heq, ?_, ?_, ?_, ?_⟩
    · rw [show (0 : Nat) = i1 - i1 by omega, sliceL_getD _ _ _ _ (by omega)]
      rw [show i1 + (i1 - i1) = i1 by omega, List.getD_eq_getElem?_getD,
        List.getElem?_eq_getElem hl1]
      simpa using hp1
    · rw [sliceL_getD _ _ _ _ (by omega)]
      rw [show i1 + (i2 - i1) = i2 by omega, List.getD_eq_getElem?_getD,
        List.getElem?_eq_getElem hl2]
      simpa using hp2
    · rw [sliceL_getD _ _ _ _ (by omega)]
      rw [show i1 + (i3 - i1) = i3 by omega, List.getD_eq_getElem?_getD,
        List.getElem?_eq_getElem hl3]
      simpa using hp3
    · rw [sliceL_getD _ _ _ _ (by omega)]
      rw [show i1 + (i4 - i1) = i4 by omega, List.getD_eq_getElem?_getD,
        List.getElem?_eq_getElem hl4]
      simpa using hp4
  · intro hnone
    simp only [normalizeTopSections]
    rcases hnone with h | h | h | h
    · rw [h]
    · rcases v1 : ((splitNlData text.data).map normLine).findIdx? (isTopN '1') with _ | i1 <;>
        rw [h]
    · rcases v1 : ((splitNlData text.data).map normLine).findIdx? (isTopN '1') with _ | i1 <;>
        rcases v2 : ((splitNlData text.data).map normLine).findIdx? (isTopN '2') with _ | i2 <;>
          rw [h]
    · rcases v1 : ((splitNlData text.data).map normLine).findIdx? (isTopN '1') with _ | i1 <;>
        rcases v2 : ((splitNlData text.data).map normLine).findIdx? (isTopN '2') with _ | i2 <;>
          rcases v3 : ((splitNlData text.data).map normLine).findIdx? (isTopN '3') with _ | i3 <;>
            rw [h]

/-- Closed instance of C2's amended statement on an in-order document. -/
theorem c2_top_sections_order_witness :
    normalizeTopSections dC2w =
      String.mk (joinNl (sliceL ((splitNlData dC2w.data).map normLine) 0
        (topEndAbs ((splitNlData dC2w.data).map normLine) 6))) :=
  (((c2_top_sections_order dC2w).1 0 2 4 6 (by decide) (by decide) (by decide) (by decide)
    (by decide) (by decide) (by decide))).1

/-- C2 counterexample: on `exC2` all four canonical headers are located,
yet the output of the renumbering pass carries the section-3 header twice —
the four sections are not emitted in physical order 1,2,3,4. -/
theorem c2_reorder_cex :
    (((splitNlData exC2.data).map normLine).findIdx? (isTopN '1')).isSome = true ∧
    (((splitNlData exC2.data).map normLine).findIdx? (isTopN '2')).isSome = true ∧
    (((splitNlData exC2.data).map normLine).findIdx? (isTopN '3')).isSome = true ∧
    (((splitNlData exC2.data).map normLine).findIdx? (isTopN '4')).isSome = true ∧
    (splitNlData (normalizeTopSections exC2).data).countP (isTopN '3') = 2 := by
  refine ⟨by decide, by decide, by decide, by decide, by decide⟩

/-- A prefix of the first part is a prefix of the whole. -/
theorem isPrefixOf_append_cs (a b c : List Char) (h : a.isPrefixOf b = true) :
    a.isPrefixOf (b ++ c) = true := by
  rw [List.isPrefixOf_iff_prefix] at h ⊢
  exact h.trans (List.prefix_append b c)

/-- One step of the newline intercalation. -/
theorem intercalate_cons_nl (x : List Char) (y : List (List Char)) (hy : y ≠ []) :
    List.intercalate [ '\n'] (x :: y) = x ++ '\n' :: List.intercalate [ '\n'] y := by
  cases y with
  | nil => exact absurd rfl hy
  | cons z t => simp [List.intercalate, List.flatten]

/-- A prefix of the first line is a prefix of the intercalation. -/
theorem prefix_intercalate_head (m x : List Char) (y : List (List Char)) (hy : y ≠ [])
    (h : m.isPrefixOf x = true) :
    m.isPrefixOf (List.intercalate [ '\n'] (x :: y)) = true := by
  rw [intercalate_cons_nl x y hy]
  exact isPrefixOf_append_cs m x _ h

/-- C8.  For every gated failure status and each supported language the
route's fallback document is the deterministic stub of keyword,
description, length tier and language; it begins with the fixed
language-specific marker sentence and its lines carry exactly the four
canonical section headers, numbered 1 to 4 in order. -/
theorem c8_fallback_stub (status : Nat) (hst : status ∈ fallbackGateStatuses)
    (language : String)
    (hlang : language = "中文" ∨ language = "English" ∨ language = "日本語")
    (kw desc lengthKey : String)
    (hkw : nlFree kw.data = true) (hdesc : nlFree desc.data = true) :
    syncErrorFallback status kw desc lengthKey language =
      some (fallbackStub kw desc lengthKey language, failureTypeOf status) ∧
    (markerOf language).data.isPrefixOf (fallbackStub kw desc lengthKey language).data =
      true ∧
    (splitNlData (fallbackStub kw desc lengthKey language).data).filterMap
      (canonSectionIdx language (lcWordCount lengthKey)) = [1, 2, 3, 4] := by
  have hwc : nlFree (lcWordCount lengthKey).data = true := by
    unfold lcWordCount
    split_ifs <;> decide
  have hwcd : ('—' : Char) ∉ (lcWordCount lengthKey).data := by
    unfold lcWordCount
    split_ifs <;> decide
  refine ⟨?_, ?_, ?_⟩
  · unfold syncErrorFallback
    rw [if_pos hst]
  · rcases hlang with h | h | h <;> subst h
    · rw [show fallbackStub kw desc lengthKey ("中文") =
          fallbackStubZh kw desc (lcWordCount lengthKey) from rfl, stubDataZh]
      exact prefix_intercalate_head _ _ _ (List.cons_ne_nil _ _) (by decide)
    · rw [show fallbackStub kw desc lengthKey ("English") =
          fallbackStubEn kw desc (lcWordCount lengthKey) from rfl, stubDataEn]
      exact prefix_intercalate_head _ _ _ (List.cons_ne_nil _ _) (by decide)
    · rw [show fallbackStub kw desc lengthKey ("日本語") =
          fallbackStubJa kw desc (lcWordCount lengthKey) from rfl, stubDataJa]
      exact prefix_intercalate_head _ _ _ (List.cons_ne_nil _ _) (by decide)
  · rcases hlang with h | h | h <;> subst h
    · rw [show fallbackStub kw desc lengthKey ("中文") =
          fallbackStubZh kw desc (lcWordCount lengthKey) from rfl,
        stubLinesZh kw desc (lcWordCount lengthKey) hkw hdesc hwc]
      exact stubSectionsZh kw desc _ hwcd
    · rw [show fallbackStub kw desc lengthKey ("English") =
          fallbackStubEn kw desc (lcWordCount lengthKey) from rfl,
        stubLinesEn kw desc (lcWordCount lengthKey) hkw hdesc hwc]
      exact stubSectionsEn kw desc _ hwcd
    · rw [show fallbackStub kw desc lengthKey ("日本語") =
          fallbackStubJa kw desc (lcWordCount lengthKey) from rfl,
        stubLinesJa kw desc (lcWordCount lengthKey) hkw hdesc hwc]
      exact stubSectionsJa kw desc _ hwcd

/-- Closed instance of C8 at status 429, English, tier `short`. -/
theorem c8_fallback_stub_witness :
    syncErrorFallback 429 ("AI") ("notes") "short" "English" =
      some (fallbackStub ("AI") ("notes") "short" "English", failureTypeOf 429) ∧
    (markerOf "English").data.isPrefixOf
        (fallbackStub ("AI") ("notes") "short" "English").data = true ∧
    (splitNlData (fallbackStub ("AI") ("notes") "short" "English").data).filterMap
      (canonSectionIdx "English" (lcWordCount "short")) = [1, 2, 3, 4] :=
  c8_fallback_stub 429 (by decide) "English" (Or.inr (Or.inl rfl)) ("AI") ("notes")
    "short" (by decide) (by decide)

/-- Membership of `idxsOfAux`: exactly the (shifted) positions satisfying
the predicate. -/
theorem mem_idxsOfAux (p : List Char → Bool) :
    ∀ (ls : List (List Char)) (base k : Nat),
      k ∈ idxsOfAux p base ls ↔
        base ≤ k ∧ k - base < ls.length ∧ p (ls.getD (k - base) []) = true := by
  intro ls
  induction ls with
  | nil =>
    intro base k
    simp [idxsOfAux]
  | cons l rest ih =>
    intro base k
    unfold idxsOfAux
    split_ifs with hp
    · simp only [List.mem_cons, ih (base + 1) k]
      constructor
      · rintro (rfl | ⟨h1, h2, h3⟩)
        · exact ⟨Nat.le_refl _, by simp, by simpa [Nat.sub_self] using hp⟩
        · refine ⟨by omega, by simp only [List.length_cons]; omega, ?_⟩
          have hs : k - base = (k - (base + 1)) + 1 := by omega
          rw [hs]
          simpa using h3
      · rintro ⟨h1, h2, h3⟩
        by_cases hk : k = base
        · exact Or.inl hk
        · refine Or.inr ⟨by omega, by simp only [List.length_cons] at h2; omega, ?_⟩
          have hs : k - base = (k - (base + 1)) + 1 := by omega
          rw [hs] at h3
          simpa using h3
    · rw [ih (base + 1) k]
      constructor
      · rintro ⟨h1, h2, h3⟩
        refine ⟨by omega, by simp only [List.length_cons]; omega, ?_⟩
        have hs : k - base = (k - (base + 1)) + 1 := by omega
        rw [hs]
        simpa using h3
      · rintro ⟨h1, h2, h3⟩
        have hk : k ≠ base := by
          rintro rfl
          rw [Nat.sub_self] at h3
          simp only [List.getD_cons_zero] at h3
          exact absurd h3 (by simp [hp])
        refine ⟨by omega, by simp only [List.length_cons] at h2; omega, ?_⟩
        have hs : k - base = (k - (base + 1)) + 1 := by omega
        rw [hs] at h3
        simpa using h3

/-- The indices returned by `idxsOfAux` are strictly increasing. -/
theorem pairwise_idxsOfAux (p : List Char → Bool) :
    ∀ (ls : List (List Char)) (base : Nat),
      List.Pairwise (· < ·) (idxsOfAux p base ls) := by
  intro ls
  induction ls with
  | nil =>
    intro base
    simp [idxsOfAux]
  | cons l rest ih =>
    intro base
    unfold idxsOfAux
    split_ifs with hp
    · refine List.pairwise_cons.2 ⟨?_, ih (base + 1)⟩
      intro k hk
      have := (mem_idxsOfAux p rest (base + 1) k).1 hk
      omega
    · exact ih (base + 1)

/-- `idxsOfAux` is empty exactly when no line satisfies the predicate. -/
theorem idxsOfAux_eq_nil (p : List Char → Bool) :
    ∀ (ls : List (List Char)) (base : Nat),
      idxsOfAux p base ls = [] ↔ ∀ l ∈ ls, p l = false := by
  intro ls
  induction ls with
  | nil =>
    intro base
    simp [idxsOfAux]
  | cons l rest ih =>
    intro base
    unfold idxsOfAux
    split_ifs with hp
    · simp [hp]
    · simp only [ih (base + 1), List.mem_cons]
      constructor
      · rintro h x (rfl | hx)
        · simpa using hp
        · exact h x hx
      · intro h x hx
        exact h x (Or.inr hx)

/-- `includes` is the infix relation. -/
theorem containsSub_isInfix_iff (pat : List Char) :
    ∀ l, containsSub pat l = true ↔ pat <:+: l := by
  intro l
  induction l with
  | nil =>
    simp [containsSub, List.isPrefixOf_iff_prefix]
  | cons c cs ih =>
    simp only [containsSub, Bool.or_eq_true, List.isPrefixOf_iff_prefix, ih]
    constructor
    · rintro (h | h)
      · exact h.isInfix
      · exact List.infix_cons h
    · intro h
      rcases List.infix_cons_iff.mp h with h | h
      · exact Or.inl h
      · exact Or.inr h

/-- Every line of the split is an infix of the split text, and the first
line is a prefix. -/
theorem splitNl_line_within : ∀ t : List Char,
    (∀ l ∈ splitNlData t, l <:+: t) ∧
    (∀ h rest, splitNlData t = h :: rest → h <+: t) := by
  intro t
  induction t using splitNlData.induct with
  | case1 =>
    refine ⟨?_, ?_⟩
    · intro l hl
      simp only [splitNlData, List.mem_singleton] at hl
      subst hl
      exact List.nil_infix
    · intro h rest he
      simp only [splitNlData, List.cons.injEq] at he
      rw [← he.1]
  | case2 =>
    refine ⟨?_, ?_⟩
    · intro l hl
      rw [show splitNlData ['\n'] = [[], []] from rfl] at hl
      rcases List.mem_cons.mp hl with rfl | hl
      · exact List.nil_infix
      · rw [List.mem_singleton.mp hl]
        exact List.nil_infix
    · intro h rest he
      rw [show splitNlData ['\n'] = [[], []] from rfl] at he
      injection he with h1 h2
      rw [← h1]
      exact List.nil_prefix
  | case3 c hc =>
    have hres : splitNlData [c] = [[c]] := by
      simp [splitNlData, hc]
    refine ⟨?_, ?_⟩
    · intro l hl
      rw [hres] at hl
      rw [List.mem_singleton.mp hl]
    · intro h rest he
      rw [hres] at he
      injection he with h1 h2
      rw [← h1]
  | case4 c1 c2 rest h ih =>
    have hres : splitNlData (c1 :: c2 :: rest) = [] :: splitNlData rest := by
      rw [splitNlData.eq_def]
      simp only [if_pos h]
    refine ⟨?_, ?_⟩
    · intro l hl
      rw [hres] at hl
      rcases List.mem_cons.mp hl with rfl | hl
      · exact List.nil_infix
      · exact List.infix_cons (List.infix_cons (ih.1 l hl))
    · intro hd rest' he
      rw [hres] at he
      injection he with h1 h2
      rw [← h1]
      exact List.nil_prefix
  | case5 c2 rest h ih =>
    have hres : splitNlData ('\n' :: c2 :: rest) = [] :: splitNlData (c2 :: rest) :=
      splitNlData_cons_nl (c2 :: rest)
    refine ⟨?_, ?_⟩
    · intro l hl
      rw [hres] at hl
      rcases List.mem_cons.mp hl with rfl | hl
      · exact List.nil_infix
      · exact List.infix_cons (ih.1 l hl)
    · intro hd rest' he
      rw [hres] at he
      injection he with h1 h2
      rw [← h1]
      exact List.nil_prefix
  | case6 c1 c2 rest h1 h2 ih =>
    cases hs : splitNlData (c2 :: rest) with
    | nil => exact absurd hs (splitNlData_ne_nil _)
    | cons x xs =>
      have hx : x <+: c2 :: rest := ih.2 x xs hs
      have hres : splitNlData (c1 :: c2 :: rest) = (c1 :: x) :: xs := by
        rw [splitNlData.eq_def]
        simp only [if_neg h1, if_neg h2, hs, List.modifyHead_cons]
      refine ⟨?_, ?_⟩
      · intro l hl
        rw [hres] at hl
        rcases List.mem_cons.mp hl with rfl | hl
        · exact ((List.prefix_cons_inj c1).mpr hx).isInfix
        · exact List.infix_cons (ih.1 l (hs ▸ List.mem_cons_of_mem x hl))
      · intro hd rest' he
        rw [hres] at he
        injection he with hh ht
        rw [← hh]
        exact (List.prefix_cons_inj c1).mpr hx

/-- A text without a fallback marker has no marker line. -/
theorem no_marker_lines (text : String) (h : hasFallbackMarker text = false) :
    idxsOf markerLineTest (splitNlData text.data) = [] := by
  rw [idxsOf, idxsOfAux_eq_nil]
  intro l hl
  have hinf : l <:+: text.data := (splitNl_line_within text.data).1 l hl
  have hmono : ∀ pat : List Char, containsSub pat text.data = false →
      containsSub pat l = false := by
    intro pat hp
    cases hc : containsSub pat l with
    | false => rfl
    | true =>
      have : pat <:+: text.data := ((containsSub_isInfix_iff pat l).1 hc).trans hinf
      rw [(containsSub_isInfix_iff pat text.data).2 this] at hp
      cases hp
  unfold hasFallbackMarker at h
  simp only [Bool.or_eq_false_iff] at h
  unfold markerLineTest
  rw [hmono _ h.1.1, hmono _ h.1.2, hmono _ h.2]
  rfl

/-- A half-open index slice whose single predicate-satisfying position is
its start contains exactly one satisfying line. -/
theorem countP_slice_one (p : List Char → Bool) (ls : List (List Char)) (i j : Nat)
    (hij : i < j) (hil : i < ls.length)
    (hpi : p (ls.getD i []) = true)
    (hmid : ∀ k, i < k → k < j → k < ls.length → p (ls.getD k []) = false) :
    (sliceL ls i j).countP p = 1 := by
  have hdi : ls.drop i = ls[i] :: ls.drop (i + 1) := List.drop_eq_getElem_cons hil
  have hslice : sliceL ls i j = ls[i] :: (ls.drop (i + 1)).take (j - (i + 1)) := by
    unfold sliceL
    rw [hdi, show j - i = (j - (i + 1)) + 1 by omega]
    rfl
  rw [hslice, List.countP_cons]
  have hz : ((ls.drop (i + 1)).take (j - (i + 1))).countP p = 0 := by
    rw [List.countP_eq_zero]
    intro a ha
    rcases List.mem_iff_getElem.1 ha with ⟨k, hk, hak⟩
    have hk1 : k < j - (i + 1) := by
      have := hk
      simp only [List.length_take, List.length_drop] at this
      omega
    have hk2 : i + 1 + k < ls.length := by
      have := hk
      simp only [List.length_take, List.length_drop] at this
      omega
    have : a = ls[i + 1 + k] := by
      rw [← hak, List.getElem_take, List.getElem_drop]
    rw [this]
    have hf := hmid (i + 1 + k) (by omega) (by omega) hk2
    rw [List.getD_eq_getElem?_getD, List.getElem?_eq_getElem hk2, Option.getD_some] at hf
    simp [hf]
  rw [hz]
  have hpt : p ls[i] = true := by
    rwa [List.getD_eq_getElem?_getD, List.getElem?_eq_getElem hil, Option.getD_some] at hpi
  rw [hpt]
  simp

set_option maxHeartbeats 1000000 in
/-- C7 (amended).  On marker-free text: with two or more section-1 header
lines, the duplicate-stripper returns exactly the trimmed span of lines
from the first header up to (excluding) the second — a span containing
exactly one section-1 header line — and with at most one such header the
text is returned unchanged.  (The original claim's "the result contains
exactly one section-1 header" can be defeated by the final trim, see
`c7_trim_drops_header_cex`.) -/
theorem c7_strip_duplicates (text : String) (hm : hasFallbackMarker text = false) :
    (∀ i j rest, idxsOf (isTopN '1') (splitNlData text.data) = i :: j :: rest →
        stripDuplicateStructures text =
          String.mk (jsTrim (joinNl (sliceL (splitNlData text.data) i j))) ∧
        (sliceL (splitNlData text.data) i j).countP (isTopN '1') = 1) ∧
    (∀ i, idxsOf (isTopN '1') (splitNlData text.data) = [i] →
        stripDuplicateStructures text = text) ∧
    (idxsOf (isTopN '1') (splitNlData text.data) = [] →
        stripDuplicateStructures text = text) := by
  have hml := no_marker_lines text hm
  refine ⟨?_, ?_, ?_⟩
  · intro i j rest hidx
    have hidx' : idxsOfAux (isTopN '1') 0 (splitNlData text.data) = i :: j :: rest := hidx
    have hpair := pairwise_idxsOfAux (isTopN '1') (splitNlData text.data) 0
    rw [hidx'] at hpair
    have hij : i < j := (List.pairwise_cons.1 hpair).1 j (by simp)
    have hI := (mem_idxsOfAux (isTopN '1') (splitNlData text.data) 0 i).1
      (by rw [hidx']; simp)
    rw [Nat.sub_zero] at hI
    constructor
    · simp only [stripDuplicateStructures]
      rw [hml, hidx]
    · refine countP_slice_one _ _ i j hij hI.2.1 hI.2.2 ?_
      intro k hik hkj hkl
      cases hc : isTopN '1' ((splitNlData text.data).getD k []) with
      | false => rfl
      | true =>
        have hkmem : k ∈ idxsOfAux (isTopN '1') 0 (splitNlData text.data) :=
          (mem_idxsOfAux (isTopN '1') (splitNlData text.data) 0 k).2
            ⟨Nat.zero_le _, by simpa using hkl, by simpa using hc⟩
        rw [hidx'] at hkmem
        rcases List.mem_cons.mp hkmem with rfl | hkmem
        · omega
        rcases List.mem_cons.mp hkmem with rfl | hkmem
        · omega
        · have := (List.pairwise_cons.1 (List.pairwise_cons.1 hpair).2).1 k hkmem
          omega
  · intro i hidx
    simp only [stripDuplicateStructures]
    rw [hml, hidx]
  · intro hidx
    simp only [stripDuplicateStructures]
    rw [hml, hidx]

/-- Closed instance of C7's amended statement. -/
theorem c7_strip_duplicates_witness :
    stripDuplicateStructures dC7w =
      String.mk (jsTrim (joinNl (sliceL (splitNlData dC7w.data) 1 3))) ∧
    (sliceL (splitNlData dC7w.data) 1 3).countP (isTopN '1') = 1 :=
  (c7_strip_duplicates dC7w (by decide)).1 1 3 [] (by decide)

/-- C7 counterexample: on `exC7` the pattern matches two lines and no
marker is present, yet the stripped result contains zero section-1 header
lines — the final trim removed the trailing whitespace the header match
requires, refuting "the result contains exactly one section-1 header". -/
theorem c7_trim_drops_header_cex :
    hasFallbackMarker exC7 = false ∧
    (idxsOf (isTopN '1') (splitNlData exC7.data)).length = 2 ∧
    (splitNlData (stripDuplicateStructures exC7).data).countP (isTopN '1') = 0 := by
  refine ⟨by decide, by decide, by decide⟩

/-- C10.  `addToHistory` prepends the freshly built item and truncates the
store to `MAX_HISTORY_ITEMS`; every operation sequence keeps the persisted
store at 20 items or fewer; and `getHistory` returns the items sorted by
descending timestamp. -/
theorem c10_history_bound_sorted :
    (∀ (store : List HistoryItem) (f : HistoryFields) (rid : String) (now : Nat),
        (addToHistory store f rid now).1 =
          (mkHistoryItem f rid now :: getHistory store).take MAX_HISTORY_ITEMS ∧
        (addToHistory store f rid now).2 = mkHistoryItem f rid now ∧
        (addToHistory store f rid now).1.head? = some (mkHistoryItem f rid now) ∧
        (addToHistory store f rid now).1.length ≤ MAX_HISTORY_ITEMS) ∧
    (∀ (ops : List HistOp) (store : List HistoryItem),
        store.length ≤ MAX_HISTORY_ITEMS →
        (ops.foldl applyHistOp store).length ≤ MAX_HISTORY_ITEMS) ∧
    (∀ store : List HistoryItem,
        (getHistory store).Pairwise (fun a b => b.timestamp ≤ a.timestamp)) := by
  have hlen : ∀ store : List HistoryItem, (getHistory store).length = store.length := by
    intro store
    simp [getHistory]
  have hstep : ∀ (store : List HistoryItem) (op : HistOp),
      store.length ≤ MAX_HISTORY_ITEMS →
      (applyHistOp store op).length ≤ MAX_HISTORY_ITEMS := by
    intro store op hs
    cases op with
    | add f rid now =>
      simp only [applyHistOp, addToHistory, List.length_take]
      omega
    | del idv =>
      simp only [applyHistOp, deleteHistoryItem]
      calc ((getHistory store).filter _).length ≤ (getHistory store).length :=
            List.length_filter_le _ _
        _ ≤ MAX_HISTORY_ITEMS := by rw [hlen]; exact hs
    | fav idv =>
      simp only [applyHistOp, toggleFavorite, List.length_map]
      rw [hlen]
      exact hs
    | upd idv u now =>
      simp only [applyHistOp, updateHistoryItem]
      split_ifs with h
      · rw [List.length_map, hlen]
        exact hs
      · exact hs
  refine ⟨?_, ?_, ?_⟩
  · intro store f rid now
    refine ⟨rfl, rfl, ?_, ?_⟩
    · simp [addToHistory, MAX_HISTORY_ITEMS]
    · simp only [addToHistory, List.length_take]
      omega
  · intro ops
    induction ops with
    | nil =>
      intro store hs
      exact hs
    | cons op rest ih =>
      intro store hs
      exact ih _ (hstep store op hs)
  · intro store
    have hs := @List.sorted_mergeSort HistoryItem
      (fun a b : HistoryItem => decide (b.timestamp ≤ a.timestamp))
      (fun a b c hab hbc => by
        simp only [decide_eq_true_eq] at hab hbc ⊢
        omega)
      (fun a b => by
        simp only [Bool.or_eq_true, decide_eq_true_eq]
        omega)
      store
    exact hs.imp (fun h => by simpa using h)

/-- Closed instance of C10 on a small store. -/
theorem c10_history_bound_sorted_witness :
    (([HistOp.del ("x")]).foldl applyHistOp ([] : List HistoryItem)).length ≤
      MAX_HISTORY_ITEMS ∧
    (getHistory ([] : List HistoryItem)).Pairwise
      (fun a b => b.timestamp ≤ a.timestamp) :=
  ⟨c10_history_bound_sorted.2.1 [HistOp.del ("x")] [] (by decide),
   c10_history_bound_sorted.2.2 []⟩

end Aitune
